import Mathlib

/-!
Verification development for the GVSA team-identity resolution engine.

The Python sources are embedded shallowly: strings are `String`/`List Char`,
machine integers are `Int`/`Nat`, the database is an explicit record of
entity lists, and the external fuzzy-similarity library (`thefuzz`) is a
scorer parameter `String → String → Nat`.  Definitions follow the source
files `team_name_parser.py`, `age_progression.py`, `db_pony.py`,
`gvsa/team_progression.py` and `team_matching_candidates.py`.
-/

namespace GVSA

/-! ### Python-style character and string helpers -/

/-- The apostrophe character (written via its code point). -/
def sq : Char := Char.ofNat 39

/-- Python whitespace for `str.split` / `str.strip` / regex `\s` (ASCII part). -/
def wsChar (c : Char) : Bool :=
  c == ' ' || c == Char.ofNat 9 || c == Char.ofNat 10 || c == Char.ofNat 13 ||
  c == Char.ofNat 11 || c == Char.ofNat 12

/-- ASCII lowercase conversion, as `str.lower` acts on ASCII letters. -/
def pyLower (c : Char) : Char :=
  if c == 'A' then 'a' else if c == 'B' then 'b' else if c == 'C' then 'c'
  else if c == 'D' then 'd' else if c == 'E' then 'e' else if c == 'F' then 'f'
  else if c == 'G' then 'g' else if c == 'H' then 'h' else if c == 'I' then 'i'
  else if c == 'J' then 'j' else if c == 'K' then 'k' else if c == 'L' then 'l'
  else if c == 'M' then 'm' else if c == 'N' then 'n' else if c == 'O' then 'o'
  else if c == 'P' then 'p' else if c == 'Q' then 'q' else if c == 'R' then 'r'
  else if c == 'S' then 's' else if c == 'T' then 't' else if c == 'U' then 'u'
  else if c == 'V' then 'v' else if c == 'W' then 'w' else if c == 'X' then 'x'
  else if c == 'Y' then 'y' else if c == 'Z' then 'z' else c

/-- ASCII uppercase conversion, as `str.upper` acts on ASCII letters. -/
def pyUpper (c : Char) : Char :=
  if c == 'a' then 'A' else if c == 'b' then 'B' else if c == 'c' then 'C'
  else if c == 'd' then 'D' else if c == 'e' then 'E' else if c == 'f' then 'F'
  else if c == 'g' then 'G' else if c == 'h' then 'H' else if c == 'i' then 'I'
  else if c == 'j' then 'J' else if c == 'k' then 'K' else if c == 'l' then 'L'
  else if c == 'm' then 'M' else if c == 'n' then 'N' else if c == 'o' then 'O'
  else if c == 'p' then 'P' else if c == 'q' then 'Q' else if c == 'r' then 'R'
  else if c == 's' then 'S' else if c == 't' then 'T' else if c == 'u' then 'U'
  else if c == 'v' then 'V' else if c == 'w' then 'W' else if c == 'x' then 'X'
  else if c == 'y' then 'Y' else if c == 'z' then 'Z' else c

/-- A regex word character (`\w` over ASCII). -/
def isWordChar (c : Char) : Bool := c.isAlphanum || c == '_'

/-- Numeric value of a decimal digit character. -/
def digitVal (c : Char) : Nat := c.toNat - 48

/-- `str.strip()` on the left only. -/
def pyLStrip (l : List Char) : List Char := l.dropWhile wsChar

/-- Remove a trailing run of whitespace (right side of `str.strip()`,
also used for the `\s*$` part of trailing-token regexes). -/
def dropTrailingWsChars (l : List Char) : List Char :=
  (l.reverse.dropWhile wsChar).reverse

/-- `str.strip()` with no arguments. -/
def pyStrip (l : List Char) : List Char := dropTrailingWsChars (pyLStrip l)

/-- `str.strip(chars)`: drop the given characters from both ends. -/
def pyStripChars (cs : List Char) (l : List Char) : List Char :=
  ((l.dropWhile (fun c => cs.contains c)).reverse.dropWhile
    (fun c => cs.contains c)).reverse

/-- Helper for `pySplit`: accumulates the current word (reversed). -/
def splitAux (acc : List Char) : List Char → List (List Char)
  | [] => if acc.isEmpty then [] else [acc.reverse]
  | c :: cs =>
    if wsChar c then
      if acc.isEmpty then splitAux [] cs else acc.reverse :: splitAux [] cs
    else splitAux (c :: acc) cs

/-- Python `str.split()` with no arguments: split on whitespace runs,
dropping empty pieces. -/
def pySplit (l : List Char) : List (List Char) := splitAux [] l

/-- `' '.join(words)` over character lists. -/
def joinWords : List (List Char) → List Char
  | [] => []
  | [w] => w
  | w :: ws => w ++ ' ' :: joinWords ws

/-- `' '.join(s.split())`: collapse whitespace runs and trim. -/
def collapseWs (l : List Char) : List Char := joinWords (pySplit l)

/-- Helper for `squeezeWs`, tracking whether the previous input char was
whitespace. -/
def squeezeAux (prevWs : Bool) : List Char → List Char
  | [] => []
  | c :: cs =>
    if wsChar c then
      if prevWs then squeezeAux true cs else ' ' :: squeezeAux true cs
    else c :: squeezeAux false cs

/-- Regex `re.sub` of `\s+` by a single space (no trimming). -/
def squeezeWs (l : List Char) : List Char := squeezeAux false l

/-- Regex `re.sub` of a leading `[-\s]+` by the empty string. -/
def dropLeadingSep (l : List Char) : List Char :=
  l.dropWhile (fun c => c == '-' || wsChar c)

/-- Python truthiness of an optional integer field. -/
def pyTruthyInt (o : Option Int) : Bool :=
  match o with
  | none => false
  | some n => n != 0

/-- Python truthiness of an optional string field. -/
def pyTruthyStr (o : Option String) : Bool :=
  match o with
  | none => false
  | some s => s != ""

/-- `str.upper()` over a whole string. -/
def strUpper (s : String) : String := String.mk (s.data.map pyUpper)

/-- `str.lower()` over a whole string. -/
def strLower (s : String) : String := String.mk (s.data.map pyLower)

/-! ### `age_progression.calculate_age_group` -/

/-- `age_progression.calculate_age_group`: expected U-age window from the
birth year and the season context.  Fall uses the season year as the
cutoff year, Spring the previous year; unknown season types default to
the season year; the result is absent when the U-age leaves `[5, 19]`. -/
def calculate_age_group (birth_year : Int) (season_year : Int)
    (season_type : String) : Option (Int × Int) :=
  let season_type_upper := strUpper season_type
  let cutoff_year :=
    if season_type_upper = "F" ∨ season_type_upper = "FALL" then season_year
    else if season_type_upper = "S" ∨ season_type_upper = "SPRING" then
      season_year - 1
    else season_year
  let age_on_cutoff := cutoff_year - birth_year
  let u_age := age_on_cutoff + 1
  if u_age < 5 ∨ u_age > 19 then none
  else some (u_age, u_age)

/-- Python substring containment (`pat in s`) over character lists. -/
def containsSeq (pat : List Char) : List Char → Bool
  | [] => pat.isEmpty
  | c :: cs => pat.isPrefixOf (c :: cs) || containsSeq pat cs

/-! ### `team_name_parser.parse_team_name` -/

/-- Result record of `parse_team_name`. -/
structure ParseResult where
  club_name : Option String
  birth_year : Option Int
  gender : Option String
  designation : Option String
  original_name : String
  parsed : Bool
deriving DecidableEq

/-- `[BG]` with `re.IGNORECASE`. -/
def isBG (c : Char) : Bool := c == 'B' || c == 'G' || c == 'b' || c == 'g'

/-- Word boundary `\b` between the end of a match and the rest of the
string: satisfied at end of input or before a non-word character. -/
def boundaryAfter : List Char → Bool
  | [] => true
  | r :: _ => !isWordChar r

/-- `re.search` of pattern 1, an apostrophe, two digits and a gender
letter followed by a word boundary.  Returns the match start, the
two-digit value and the gender letter. -/
def findPat1 : List Char → Nat → Option (Nat × Nat × Char)
  | [], _ => none
  | c :: cs, i =>
    let here : Option (Nat × Nat × Char) :=
      if c == sq then
        match cs with
        | d1 :: d2 :: g :: rest =>
          if d1.isDigit && d2.isDigit && isBG g && boundaryAfter rest then
            some (i, 10 * digitVal d1 + digitVal d2, g)
          else none
        | _ => none
      else none
    match here with
    | some m => some m
    | none => findPat1 cs (i + 1)

/-- `re.search` of pattern 2, four digits and a gender letter followed by
a word boundary.  Returns the match start, the four-digit value and the
gender letter. -/
def findPat2 : List Char → Nat → Option (Nat × Nat × Char)
  | [], _ => none
  | c :: cs, i =>
    let here : Option (Nat × Nat × Char) :=
      match cs with
      | d2 :: d3 :: d4 :: g :: rest =>
        if c.isDigit && d2.isDigit && d3.isDigit && d4.isDigit && isBG g &&
            boundaryAfter rest then
          some (i, 1000 * digitVal c + 100 * digitVal d2 + 10 * digitVal d3 +
            digitVal d4, g)
        else none
      | _ => none
    match here with
    | some m => some m
    | none => findPat2 cs (i + 1)

/-- `re.search` of pattern 3, an apostrophe and two digits followed by a
word boundary.  Returns the match start and the two-digit value. -/
def findPat3 : List Char → Nat → Option (Nat × Nat)
  | [], _ => none
  | c :: cs, i =>
    let here : Option (Nat × Nat) :=
      if c == sq then
        match cs with
        | d1 :: d2 :: rest =>
          if d1.isDigit && d2.isDigit && boundaryAfter rest then
            some (i, 10 * digitVal d1 + digitVal d2)
          else none
        | _ => none
      else none
    match here with
    | some m => some m
    | none => findPat3 cs (i + 1)

/-- First match of pattern 4, a word-bounded four-digit year in the range
2000 to 2039.  The extra boolean tracks whether the previous character
was a word character, for the leading boundary. -/
def findPat4 : List Char → Nat → Bool → Option (Nat × Nat)
  | [], _, _ => none
  | c :: cs, i, prevWord =>
    let here : Option (Nat × Nat) :=
      if prevWord then none
      else
        match cs with
        | c2 :: c3 :: c4 :: rest =>
          if c == '2' && c2 == '0' && c3.isDigit && digitVal c3 ≤ 3 &&
              c4.isDigit && boundaryAfter rest then
            some (i, 2000 + 10 * digitVal c3 + digitVal c4)
          else none
        | _ => none
    match here with
    | some m => some m
    | none => findPat4 cs (i + 1) (isWordChar c)

/-- Century inference for two-digit years: values up to 30 are mapped
into the 2000s, larger values into the 1900s. -/
def inferCentury (v : Nat) : Int :=
  if v ≤ 30 then 2000 + (v : Int) else 1900 + (v : Int)

/-- Club-name extraction shared by all parser patterns: text before the
match, whitespace-squeezed and stripped of spaces and hyphens. -/
def clubBefore (name : List Char) (start : Nat) : Option String :=
  let club_part := pyStrip (name.take start)
  if club_part.isEmpty then none
  else
    let club_part := pyStripChars [' ', '-'] (squeezeWs club_part)
    if club_part.isEmpty then none else some (String.mk club_part)

/-- Designation extraction shared by all parser patterns: text after the
match, stripped of a leading separator run and of whitespace. -/
def designationAfter (name : List Char) (stop : Nat) : Option String :=
  let designation_part := pyStrip (name.drop stop)
  if designation_part.isEmpty then none
  else
    let designation_part := pyStrip (dropLeadingSep designation_part)
    if designation_part.isEmpty then none else some (String.mk designation_part)

/-- Gender word search used by patterns 3 and 4: looks for the literal
words boys/boy or girls/girl in the lowercased name. -/
def genderFromContext (name : List Char) : Option String :=
  let name_lower := name.map pyLower
  if containsSeq ['b','o','y','s'] name_lower ||
      containsSeq [' ','b','o','y'] name_lower then some "Boys"
  else if containsSeq ['g','i','r','l','s'] name_lower ||
      containsSeq [' ','g','i','r','l'] name_lower then some "Girls"
  else none

/-- Gender from an explicit trailing letter (`name[match.end()-1].upper()`). -/
def genderFromChar (g : Char) : Option String :=
  if pyUpper g == 'B' then some "Boys"
  else if pyUpper g == 'G' then some "Girls"
  else none

/-- Pattern 4 step of `parse_team_name`, applied to the result built so
far (pattern 3 falls through to it when its birth year is falsy). -/
def applyPat4 (name : List Char) (r : ParseResult) : ParseResult :=
  match findPat4 name 0 false with
  | none => r
  | some (start, v) =>
    let r := { r with birth_year := some (v : Int) }
    let r :=
      match genderFromContext name with
      | some g => { r with gender := some g }
      | none => r
    let r :=
      match clubBefore name start with
      | some c => { r with club_name := some c }
      | none => r
    let r :=
      match designationAfter name (start + 4) with
      | some d => { r with designation := some d }
      | none => r
    if pyTruthyInt r.birth_year then { r with parsed := true } else r

/-- `team_name_parser.parse_team_name`: extracts club name, birth year,
gender and designation from a raw team name, trying the four source
patterns in order. -/
def parse_team_name (team_name : String) : ParseResult :=
  let original_name := String.mk (pyStrip team_name.data)
  let base : ParseResult :=
    ⟨none, none, none, none, original_name, false⟩
  if (pyStrip team_name.data).isEmpty then base
  else
    let name := pyStrip team_name.data
    match findPat1 name 0 with
    | some (start, v, g) =>
      { base with
        birth_year := some (if v ≤ 30 then 2000 + (v : Int) else 1900 + (v : Int)),
        gender := genderFromChar g,
        club_name := clubBefore name start,
        designation := designationAfter name (start + 4),
        parsed := true }
    | none =>
      match findPat2 name 0 with
      | some (start, v, g) =>
        { base with
          birth_year := some (v : Int),
          gender := genderFromChar g,
          club_name := clubBefore name start,
          designation := designationAfter name (start + 5),
          parsed := true }
      | none =>
        match findPat3 name 0 with
        | some (start, v) =>
          let r3 : ParseResult :=
            { base with
              birth_year :=
                some (if v ≤ 30 then 2000 + (v : Int) else 1900 + (v : Int)),
              gender := genderFromContext name,
              club_name := clubBefore name start,
              designation := designationAfter name (start + 3) }
          if pyTruthyInt r3.birth_year then { r3 with parsed := true }
          else applyPat4 name r3
        | none => applyPat4 name base

/-! ### `TeamMatcher.normalize_name` -/

/-- Suffix test over character lists. -/
def isSuffixL (tok l : List Char) : Bool := tok.reverse.isPrefixOf l.reverse

/-- Regex `re.sub` of `\s+<tok>\s*$` by the empty string: removes a
trailing standalone token together with the whitespace run before it,
leaving the input unchanged when the pattern does not match. -/
def subTrailingToken (tok : List Char) (l : List Char) : List Char :=
  let r := dropTrailingWsChars l
  if isSuffixL tok r then
    let p := r.take (r.length - tok.length)
    match p.reverse with
    | [] => l
    | c :: _ => if wsChar c then dropTrailingWsChars p else l
  else l

/-- `TeamMatcher.normalize_name`: collapse whitespace, lowercase, remove
trailing fc and sc suffixes, strip. -/
def normalize_name (name : String) : String :=
  let collapsed := collapseWs name.data
  let lowered := collapsed.map pyLower
  let s1 := subTrailingToken ['f', 'c'] lowered
  let s2 := subTrailingToken ['s', 'c'] s1
  String.mk (pyStrip s2)

/-- Word-level restatement of the spec sentence for the normalizer: drop
the last word when the list has at least two words and the last word is
the given token. -/
def stripTrailingWord (tok : List Char) (ws : List (List Char)) :
    List (List Char) :=
  if 2 ≤ ws.length ∧ ws.getLast? = some tok then ws.dropLast else ws

/-- Spec-side normalizer, written from the spec words: split into words,
lowercase them, strip a trailing standalone fc token then a trailing
standalone sc token, and rejoin with single spaces. -/
def normalize_spec (name : String) : String :=
  String.mk (joinWords (stripTrailingWord ['s', 'c']
    (stripTrailingWord ['f', 'c'] ((pySplit name.data).map (List.map pyLower)))))

/-! ### `team_name_parser.extract_base_identifier` -/

/-- `team_name_parser.extract_base_identifier`: club, birth year and
gender joined by bars, without the designation. -/
def extract_base_identifier (parsed : ParseResult) : String :=
  let parts : List String := []
  let parts :=
    if pyTruthyStr parsed.club_name then
      parts ++ [String.mk (squeezeWs (pyStrip
        ((parsed.club_name.getD "").data.map pyUpper)))]
    else parts
  let parts :=
    if pyTruthyInt parsed.birth_year then
      parts ++ [toString (parsed.birth_year.getD 0)]
    else parts
  let parts :=
    if pyTruthyStr parsed.gender then
      parts ++ [match (parsed.gender.getD "").data with
        | g :: _ => String.mk [pyUpper g]
        | [] => ""]
    else parts
  if parts.isEmpty then strUpper parsed.original_name
  else String.intercalate "|" parts

/-! ### `TeamMatcher.extract_club_name` -/

/-- Stop words of the club-name heuristic. -/
def stopWords : List String :=
  ["black", "white", "green", "blue", "red", "yellow",
   "gold", "silver", "elite", "premier", "lobos",
   "rovers", "wolves", "eagles", "hawks"]

/-- One regex match attempt at the current position for `re.sub` driving:
given the remaining input and whether the previous character was a word
character, return the remainder after the match and the wordness of the
last matched character. -/
abbrev SubPat := List Char → Bool → Option (List Char × Bool)

/-- `\bU\d{1,2}\b` (club-name heuristic, no ignorecase). -/
def patU : SubPat := fun l prev =>
  if prev then none
  else
    match l with
    | 'U' :: d1 :: d2 :: rest =>
      if d1.isDigit && d2.isDigit && boundaryAfter rest then some (rest, true)
      else if d1.isDigit && !isWordChar d2 then some (d2 :: rest, true)
      else none
    | ['U', d1] => if d1.isDigit then some ([], true) else none
    | _ => none

/-- `\b\d{1,2}[BG]\b`. -/
def patNumBG : SubPat := fun l prev =>
  if prev then none
  else
    match l with
    | d1 :: d2 :: g :: rest =>
      if d1.isDigit && d2.isDigit && (g == 'B' || g == 'G') &&
          boundaryAfter rest then some (rest, true)
      else if d1.isDigit && (d2 == 'B' || d2 == 'G') && !isWordChar g then
        some (g :: rest, true)
      else none
    | [d1, g] =>
      if d1.isDigit && (g == 'B' || g == 'G') then some ([], true) else none
    | _ => none

/-- `\b\d{4}[BG]\b`. -/
def patNum4BG : SubPat := fun l prev =>
  if prev then none
  else
    match l with
    | d1 :: d2 :: d3 :: d4 :: g :: rest =>
      if d1.isDigit && d2.isDigit && d3.isDigit && d4.isDigit &&
          (g == 'B' || g == 'G') && boundaryAfter rest then some (rest, true)
      else none
    | _ => none

/-- `\b\d{2}\b`. -/
def patNum2 : SubPat := fun l prev =>
  if prev then none
  else
    match l with
    | d1 :: d2 :: rest =>
      if d1.isDigit && d2.isDigit && boundaryAfter rest then some (rest, true)
      else none
    | _ => none

/-- Fueled driver for `re.sub(pattern, empty, s)`: scans left to right,
removing every non-overlapping match.  The fuel equals the input length,
which suffices because each pattern consumes at least one character. -/
def subAllFuel (pat : SubPat) : Nat → List Char → Bool → List Char
  | 0, l, _ => l
  | _ + 1, [], _ => []
  | fuel + 1, c :: cs, prev =>
    match pat (c :: cs) prev with
    | some (rest, lastW) => subAllFuel pat fuel rest lastW
    | none => c :: subAllFuel pat fuel cs (isWordChar c)

/-- `re.sub` of a token pattern by the empty string over a whole string. -/
def subAll (pat : SubPat) (l : List Char) : List Char :=
  subAllFuel pat l.length l false

/-- `TeamMatcher.extract_club_name`: remove age and year tokens, then take
the leading words up to the first color or descriptor word. -/
def extract_club_name (team_name : String) : Option String :=
  let n1 := subAll patU team_name.data
  let n2 := subAll patNumBG n1
  let n3 := subAll patNum4BG n2
  let n4 := subAll patNum2 n3
  let words := pySplit n4
  let club_words := words.takeWhile
    (fun w => !(stopWords.contains (String.mk (w.map pyLower))))
  let club_name := pyStrip (joinWords club_words)
  let club_name := pyStrip (squeezeWs club_name)
  if club_name.length < 2 then none else some (String.mk club_name)

/-! ### Entity records (fields as used by `db_pony.py`) -/

/-- A Team row: durable identity with optional parsed attributes. -/
structure TeamR where
  id : Nat
  canonical_name : String
  birth_year : Option Int
  gender : Option String
  designation : Option String
  base_club_name : Option String
  club : Option Nat
deriving DecidableEq

/-- A Club row. -/
structure ClubR where
  id : Nat
  name : String
  canonical_name : String
deriving DecidableEq

/-- A TeamSeason row: join of team and division with season statistics. -/
structure TeamSeasonR where
  team : Nat
  division : Nat
  team_name : String
  wins : Int
  losses : Int
  ties : Int
  forfeits : Int
  points : Int
  goals_for : Int
  goals_against : Int
  goal_differential : Int
deriving DecidableEq

/-- The database tables touched by the resolution engine. -/
structure DBState where
  teams : List TeamR
  clubs : List ClubR
  teamSeasons : List TeamSeasonR
deriving DecidableEq

/-! ### `TeamMatcher.find_team_by_birth_year` -/

/-- Does a stored designation match the parsed one case-insensitively
(Python truthiness included)? -/
def designationMatches (designation : Option String) (t : TeamR) : Bool :=
  pyTruthyStr t.designation &&
    strUpper (t.designation.getD "") == strUpper (designation.getD "")

/-- Candidate filter of `find_team_by_birth_year`: same birth year,
gender and normalized club. -/
def structuredCandidates (birth_year : Int) (gender : String)
    (club_name : String) (teams : List TeamR) : List TeamR :=
  let normalized_club := normalize_name club_name
  teams.filter (fun t =>
    t.birth_year == some birth_year && t.gender == some gender &&
    t.base_club_name == some normalized_club)

/-- `TeamMatcher.find_team_by_birth_year`: structured attribute match
with the designation tie-break rule. -/
def find_team_by_birth_year (birth_year : Int) (gender : String)
    (club_name : String) (designation : Option String)
    (teams : List TeamR) : Option TeamR :=
  let candidates := structuredCandidates birth_year gender club_name teams
  match candidates with
  | [] => none
  | c :: _ =>
    if pyTruthyStr designation then
      match candidates.find? (designationMatches designation) with
      | some t => some t
      | none => some c
    else some c

/-! ### `TeamMatcher.find_matching_team` (fuzzy fallback) -/

/-- Model of `thefuzz.process.extractOne`: the first choice attaining the
maximal score under the external scorer. -/
def extractOne (scorer : String → String → Nat) (query : String) :
    List String → Option (String × Nat)
  | [] => none
  | c :: cs =>
    match extractOne scorer query cs with
    | none => some (c, scorer query c)
    | some (n, s) =>
      if s ≤ scorer query c then some (c, scorer query c) else some (n, s)

/-- `TeamMatcher.find_matching_team`: fuzzy matching of the normalized
name against every existing canonical name, accepted at score 85 and
above. -/
def find_matching_team (scorer : String → String → Nat)
    (team_name : String) (existing_teams : List TeamR) : Option TeamR :=
  let normalized := normalize_name team_name
  match existing_teams with
  | [] => none
  | _ =>
    match extractOne scorer normalized (existing_teams.map (·.canonical_name)) with
    | none => none
    | some (matched, score) =>
      if 85 ≤ score then
        existing_teams.find? (fun t => t.canonical_name == matched)
      else none

/-! ### `GVSA_Database.get_or_create_club` and `get_or_create_team` -/

/-- `GVSA_Database.get_or_create_club` over the clubs table. -/
def get_or_create_club_core (club_name : String) (clubs : List ClubR) :
    ClubR × List ClubR :=
  let normalized := normalize_name club_name
  match clubs.find? (fun c => c.canonical_name == normalized) with
  | some club => (club, clubs)
  | none =>
    let club : ClubR := ⟨clubs.length, club_name, normalized⟩
    (club, clubs ++ [club])

/-- The structured-match step of `get_or_create_team`: requires a
successful parse carrying birth year and gender, and a club name. -/
def structured_lookup (team_name : String) (teams : List TeamR) :
    Option TeamR :=
  let parsed := parse_team_name team_name
  if parsed.parsed && pyTruthyInt parsed.birth_year &&
      pyTruthyStr parsed.gender then
    if pyTruthyStr parsed.club_name then
      find_team_by_birth_year (parsed.birth_year.getD 0)
        (parsed.gender.getD "") (parsed.club_name.getD "")
        parsed.designation teams
    else none
  else none

/-- The attribute part of team creation: a fresh Team row carrying the
normalized canonical name and, when parsing succeeded, the truthy parsed
attributes. -/
def new_team_attrs (normalized : String) (nid : Nat)
    (parsed : ParseResult) : TeamR :=
  let t0 : TeamR :=
    { id := nid, canonical_name := normalized,
      birth_year := none, gender := none, designation := none,
      base_club_name := none, club := none }
  if parsed.parsed then
    { t0 with
      birth_year :=
        if pyTruthyInt parsed.birth_year then parsed.birth_year else none,
      gender :=
        if pyTruthyStr parsed.gender then parsed.gender else none,
      designation :=
        if pyTruthyStr parsed.designation then parsed.designation
        else none,
      base_club_name :=
        if pyTruthyStr parsed.club_name then
          some (normalize_name (parsed.club_name.getD ""))
        else none }
  else t0

/-- The creation step of `get_or_create_team`: new team with the
normalized name as canonical name, parsed attributes when available, and
club association via get-or-create (club name from the parse, else from
the lighter extraction heuristic). -/
def new_team_row (team_name : String) (teams : List TeamR)
    (clubs : List ClubR) : TeamR × List ClubR :=
  let normalized := normalize_name team_name
  let parsed := parse_team_name team_name
  let t1 := new_team_attrs normalized teams.length parsed
  let club_name :=
    if pyTruthyStr parsed.club_name then parsed.club_name
    else extract_club_name team_name
  if pyTruthyStr club_name then
    let cr := get_or_create_club_core (club_name.getD "") clubs
    ({ t1 with club := some cr.1.id }, cr.2)
  else (t1, clubs)

/-- `GVSA_Database.get_or_create_team` over the teams and clubs tables:
exact canonical match, then structured match, then fuzzy fallback, then
creation with parsed attributes and club association. -/
def get_or_create_team_core (scorer : String → String → Nat)
    (team_name : String) (teams : List TeamR) (clubs : List ClubR) :
    TeamR × Bool × List TeamR × List ClubR :=
  let normalized := normalize_name team_name
  match teams.find? (fun t => t.canonical_name == normalized) with
  | some team => (team, false, teams, clubs)
  | none =>
    match structured_lookup team_name teams with
    | some team => (team, false, teams, clubs)
    | none =>
      match find_matching_team scorer team_name teams with
      | some team => (team, false, teams, clubs)
      | none =>
        let r := new_team_row team_name teams clubs
        (r.1, true, teams ++ [r.1], r.2)

/-- `GVSA_Database.get_or_create_team` at the database-state level. -/
def get_or_create_team (scorer : String → String → Nat)
    (team_name : String) (st : DBState) : TeamR × Bool × DBState :=
  let r := get_or_create_team_core scorer team_name st.teams st.clubs
  (r.1, r.2.1,
    { teams := r.2.2.1
      clubs := r.2.2.2
      teamSeasons := st.teamSeasons })

/-! ### `GVSA_Database.save_standings` (per-team body) -/

/-- One row of team standings data as passed to `save_standings`. -/
structure TeamData where
  team_name : String
  wins : Int
  losses : Int
  ties : Int
  forfeits : Int
  points : Int
  goals_for : Int
  goals_against : Int
  goal_differential : Int
deriving DecidableEq

/-- Replace the first list element satisfying the predicate. -/
def updateFirst (p : α → Bool) (f : α → α) : List α → List α
  | [] => []
  | x :: xs => if p x then f x :: xs else x :: updateFirst p f xs

/-- The TeamSeason row predicate used by `save_standings`. -/
def tsMatch (teamId division : Nat) (ts : TeamSeasonR) : Bool :=
  ts.team == teamId && ts.division == division

/-- Overwrite the statistics of a TeamSeason row from standings data. -/
def applyStats (td : TeamData) (ts : TeamSeasonR) : TeamSeasonR :=
  { ts with
    wins := td.wins, losses := td.losses, ties := td.ties,
    forfeits := td.forfeits, points := td.points,
    goals_for := td.goals_for, goals_against := td.goals_against,
    goal_differential := td.goal_differential }

/-- Per-team body of `GVSA_Database.save_standings`: resolve the team,
then create the TeamSeason row for this division or update the existing
one. -/
def save_standings_team (scorer : String → String → Nat) (division : Nat)
    (td : TeamData) (st : DBState) : DBState :=
  let r := get_or_create_team scorer td.team_name st
  let team := r.1
  let st1 := r.2.2
  match st1.teamSeasons.find? (tsMatch team.id division) with
  | none =>
    { st1 with
      teamSeasons := st1.teamSeasons ++
        [⟨team.id, division, td.team_name, td.wins, td.losses, td.ties,
          td.forfeits, td.points, td.goals_for, td.goals_against,
          td.goal_differential⟩] }
  | some _ =>
    { st1 with
      teamSeasons :=
        updateFirst (tsMatch team.id division) (applyStats td)
          st1.teamSeasons }

/-- Number of TeamSeason rows for one (team, division) pair. -/
def countTS (teamId division : Nat) (st : DBState) : Nat :=
  (st.teamSeasons.filter (tsMatch teamId division)).length

/-! ### Stable sorting (model of Python `list.sort` / `sorted`) -/

/-- Insert an element before the first list element that is not strictly
smaller; combined with `pySort` below this is a stable sort. -/
def insertStable (le : α → α → Bool) (x : α) : List α → List α
  | [] => [x]
  | y :: ys =>
    if le y x && !le x y then y :: insertStable le x ys else x :: y :: ys

/-- Stable sort with respect to a boolean total preorder, modelling
Python sorting (equal keys keep their original relative order). -/
def pySort (le : α → α → Bool) : List α → List α
  | [] => []
  | x :: xs => insertStable le x (pySort le xs)

/-! ### `gvsa.team_progression.extract_age_group` -/

/-- Second capture group of `U(\d{1,2})/(\d{1,2})`: one or two digits,
greedily. -/
def secondGroup : List Char → Option Nat
  | d1 :: d2 :: _ =>
    if d1.isDigit && d2.isDigit then some (10 * digitVal d1 + digitVal d2)
    else if d1.isDigit then some (digitVal d1)
    else none
  | [d1] => if d1.isDigit then some (digitVal d1) else none
  | [] => none

/-- Match of the range pattern `U(\d{1,2})/(\d{1,2})` at the current
position. -/
def matchRangeAt : List Char → Option (Nat × Nat)
  | u :: a :: b :: c :: rest =>
    if u == 'U' then
      if a.isDigit && b.isDigit && c == '/' then
        (secondGroup rest).map (fun m => (10 * digitVal a + digitVal b, m))
      else if a.isDigit && b == '/' then
        (secondGroup (c :: rest)).map (fun m => (digitVal a, m))
      else none
    else none
  | _ => none

/-- `re.search` of the range pattern over the whole string. -/
def findRange : List Char → Option (Nat × Nat)
  | [] => none
  | c :: cs =>
    match matchRangeAt (c :: cs) with
    | some r => some r
    | none => findRange cs

/-- Match of the single pattern `U(\d{1,2})\b` at the current position. -/
def matchSingleAt : List Char → Option Nat
  | u :: a :: b :: rest =>
    if u == 'U' && a.isDigit then
      if b.isDigit && boundaryAfter rest then
        some (10 * digitVal a + digitVal b)
      else if !isWordChar b then some (digitVal a)
      else none
    else none
  | [u, a] => if u == 'U' && a.isDigit then some (digitVal a) else none
  | _ => none

/-- `re.search` of the single pattern over the whole string. -/
def findSingle : List Char → Option Nat
  | [] => none
  | c :: cs =>
    match matchSingleAt (c :: cs) with
    | some r => some r
    | none => findSingle cs

/-- `gvsa.team_progression.extract_age_group`: age-group window from a
division name, range form first, then single form. -/
def extract_age_group (division_name : String) : Option (Nat × Nat) :=
  match findRange division_name.data with
  | some r => some r
  | none => (findSingle division_name.data).map (fun a => (a, a))

/-- `get_age_group_label`. -/
def get_age_group_label (age_group : Option (Nat × Nat)) : String :=
  match age_group with
  | none => "Unknown"
  | some (min_age, max_age) =>
    if min_age == max_age then "U" ++ toString min_age
    else "U" ++ toString min_age ++ "/" ++ toString max_age

/-! ### `gvsa.team_progression.track_team_progression` (per-team body) -/

/-- A TeamSeason row joined with its division and season, as read by the
progression tracker. -/
structure SeasonRow where
  division_name : String
  division_id : Nat
  season_name : String
  year : Int
  season_type : String
  team_name : String
  wins : Int
  losses : Int
  ties : Int
  points : Int
  goals_for : Int
  goals_against : Int
deriving DecidableEq

/-- One appearance entry of the progression report. -/
structure Appearance where
  season : String
  year : Int
  season_type : String
  division_name : String
  division_id : Nat
  team_name : String
  wins : Int
  losses : Int
  ties : Int
  points : Int
  goals_for : Int
  goals_against : Int
deriving DecidableEq

/-- One age-group entry of the progression report. -/
structure ProgressionEntry where
  age_group : String
  age_min : Nat
  age_max : Nat
  appearances : List Appearance
deriving DecidableEq

/-- The per-team progression report. -/
structure ProgressionRecord where
  progression : List ProgressionEntry
  age_groups_played : Nat
  total_seasons : Nat
deriving DecidableEq

/-- Appearance built from a row (the dict appended by the tracker). -/
def appearanceOfRow (r : SeasonRow) : Appearance :=
  ⟨r.season_name, r.year, r.season_type, r.division_name, r.division_id,
   r.team_name, r.wins, r.losses, r.ties, r.points, r.goals_for,
   r.goals_against⟩

/-- Append a value to the entry of a key in an insertion-ordered
association list (a Python dict of lists). -/
def addToMap (k : Nat × Nat) (a : Appearance) :
    List ((Nat × Nat) × List Appearance) →
    List ((Nat × Nat) × List Appearance)
  | [] => [(k, [a])]
  | (k0, l0) :: rest =>
    if k0 == k then (k0, l0 ++ [a]) :: rest
    else (k0, l0) :: addToMap k a rest

/-- The grouping loop of `track_team_progression`: rows whose division
yields no age-group token, or whose window misses the age range of
interest, are skipped. -/
def buildMap (min_age max_age : Nat) (rows : List SeasonRow) :
    List ((Nat × Nat) × List Appearance) :=
  rows.foldl
    (fun m r =>
      match extract_age_group r.division_name with
      | some (age_min, age_max) =>
        if age_max < min_age || max_age < age_min then m
        else addToMap (age_min, age_max) (appearanceOfRow r) m
      | none => m)
    []

/-- Ascending order on age-group keys (Python tuple comparison). -/
def keyLe (a b : Nat × Nat) : Bool :=
  decide (a.1 < b.1 ∨ (a.1 = b.1 ∧ a.2 ≤ b.2))

/-- Ascending order on appearances by the (year, season type) tuple. -/
def appLe (a b : Appearance) : Bool :=
  decide (a.year < b.year ∨ (a.year = b.year ∧ a.season_type ≤ b.season_type))

/-- Per-team body of `gvsa.team_progression.track_team_progression`:
group the appearances of one team by age-group window; teams with fewer
than two distinct windows yield no report; windows are sorted ascending
and appearances within each window by (year, season type). -/
def track_team_progression (min_age max_age : Nat)
    (rows : List SeasonRow) : Option ProgressionRecord :=
  if rows.isEmpty then none
  else
    let m := buildMap min_age max_age rows
    if m.length < 2 then none
    else
      let sorted_ages := pySort keyLe (m.map Prod.fst)
      let progression := sorted_ages.map (fun k =>
        let appearances := pySort appLe ((m.lookup k).getD [])
        ProgressionEntry.mk (get_age_group_label (some k)) k.1 k.2 appearances)
      some ⟨progression, m.length, rows.length⟩

/-! ### `team_matching_candidates.get_matching_candidates` -/

/-- An internal candidate entry (before output projection). -/
structure CandI where
  team : TeamR
  match_type : String
  confidence : Nat
  reason : String
deriving DecidableEq

/-- An output candidate entry. -/
structure CandOut where
  team_id : Nat
  team_name : String
  birth_year : Option Int
  gender : Option String
  club : Option String
  designation : Option String
  match_type : String
  confidence : Nat
  reason : String
  seasons_count : Nat
deriving DecidableEq

/-- Result record of `get_matching_candidates`. -/
structure CandidatesResult where
  original_name : String
  parsed : ParseResult
  candidates : List CandOut
  recommended_match : Option Nat
deriving DecidableEq

/-- Model of `thefuzz.process.extract` with limit 5: all choices scored,
sorted descending by score, top five taken. -/
def extractTop5 (scorer : String → String → Nat) (query : String)
    (choices : List String) : List (String × Nat) :=
  (pySort (fun a b => decide (b.2 ≤ a.2))
    (choices.map (fun c => (c, scorer query c)))).take 5

/-- Is a candidate of a preferred match type for the recommendation? -/
def isPreferredType (c : CandI) : Bool :=
  c.match_type == "exact_name" || c.match_type == "birth_year_club"

/-- Python `enumerate` with explicit start index. -/
def pyEnum (i : Nat) : List α → List (Nat × α)
  | [] => []
  | x :: xs => (i, x) :: pyEnum (i + 1) xs

/-- The sort-and-recommend step of `get_matching_candidates` (source
lines 124-141): stable sort by descending confidence, then pick the
recommended index. -/
def sortAndRecommend (candidates : List CandI) :
    List CandI × Option Nat :=
  let sorted := pySort (fun a b => decide (b.confidence ≤ a.confidence))
    candidates
  let high_confidence :=
    ((pyEnum 0 sorted).filter (fun ic => 90 ≤ ic.2.confidence)).map Prod.fst
  let preferred := high_confidence.filter (fun i =>
    match sorted.get? i with
    | some c => isPreferredType c
    | none => false)
  let recommended : Option Nat :=
    if sorted.isEmpty then none
    else if !high_confidence.isEmpty then
      if !preferred.isEmpty then preferred.head? else high_confidence.head?
    else some 0
  (sorted, recommended)

/-- Candidate list built by the four strategies of
`get_matching_candidates`, before sorting. -/
def buildCandidates (scorer : String → String → Nat) (st : DBState)
    (team_name : String) : List CandI :=
  let parsed := parse_team_name team_name
  let normalized := normalize_name team_name
  let c1 : List CandI :=
    match st.teams.find? (fun t => t.canonical_name == normalized) with
    | some t => [⟨t, "exact_name", 100, "Exact canonical name match"⟩]
    | none => []
  let c2 : List CandI :=
    if parsed.parsed && pyTruthyInt parsed.birth_year &&
        pyTruthyStr parsed.gender then
      if pyTruthyStr parsed.club_name then
        match find_team_by_birth_year (parsed.birth_year.getD 0)
            (parsed.gender.getD "") (parsed.club_name.getD "")
            parsed.designation st.teams with
        | some matched =>
          if (c1.map (fun c => c.team.id)).contains matched.id then c1
          else
            let confidence :=
              if pyTruthyStr parsed.designation &&
                  pyTruthyStr matched.designation &&
                  strUpper (matched.designation.getD "") ==
                    strUpper (parsed.designation.getD "") then 100
              else 95
            c1 ++ [⟨matched, "birth_year_club", confidence,
              "Birth year " ++ toString (parsed.birth_year.getD 0) ++ ", " ++
                parsed.gender.getD "" ++ ", club " ++
                parsed.club_name.getD "" ++ " match"⟩]
        | none => c1
      else c1
    else c1
  let c3 : List CandI :=
    if parsed.parsed && pyTruthyInt parsed.birth_year &&
        pyTruthyStr parsed.gender then
      let base_id := extract_base_identifier parsed
      if base_id != "" then
        let base_teams := st.teams.filter (fun t =>
          t.birth_year == parsed.birth_year && t.gender == parsed.gender &&
          t.base_club_name == some (normalize_name (parsed.club_name.getD "")))
        base_teams.foldl
          (fun acc t =>
            if (acc.map (fun c => c.team.id)).contains t.id then acc
            else
              let confidence :=
                if !pyTruthyStr parsed.designation && !pyTruthyStr t.designation
                then 90 else 85
              acc ++ [⟨t, "base_identifier", confidence,
                "Base identifier match (designation may differ)"⟩])
          c2
      else c2
    else c2
  let c4 : List CandI :=
    if st.teams.isEmpty then c3
    else
      (extractTop5 scorer normalized (st.teams.map (·.canonical_name))).foldl
        (fun acc m =>
          if 75 ≤ m.2 then
            match st.teams.find? (fun t => t.canonical_name == m.1) with
            | some matched_team =>
              if (acc.map (fun c => c.team.id)).contains matched_team.id then
                acc
              else
                acc ++ [⟨matched_team, "fuzzy", m.2,
                  "Fuzzy string match (" ++ toString m.2 ++ "% similarity)"⟩]
            | none => acc
          else acc)
        c3
  c4

/-- Output projection of one candidate. -/
def candToOut (st : DBState) (c : CandI) : CandOut :=
  ⟨c.team.id, c.team.canonical_name, c.team.birth_year, c.team.gender,
   (c.team.club.bind (fun cid =>
     (st.clubs.find? (fun cl => cl.id == cid)).map (fun cl => cl.name))),
   c.team.designation, c.match_type, c.confidence, c.reason,
   (st.teamSeasons.filter (fun ts => ts.team == c.team.id)).length⟩

/-- `team_matching_candidates.get_matching_candidates`: the four
strategies, deduplicated by team identity, sorted by descending
confidence, with a recommended index. -/
def get_matching_candidates (scorer : String → String → Nat) (st : DBState)
    (team_name : String) : CandidatesResult :=
  let parsed := parse_team_name team_name
  let r := sortAndRecommend (buildCandidates scorer st team_name)
  ⟨team_name, parsed, r.1.map (candToOut st), r.2⟩

/-! ### Concrete inputs used by the theorems -/

/-- The spec example with a two-digit apostrophe year. -/
def catsName : String := "CATS FC " ++ String.mk [sq] ++ "04 BLACK"

/-- The spec example with a bare two-digit apostrophe year. -/
def bareYearName : String := String.mk [sq] ++ "04"

/-- Index of the first element satisfying a predicate (used to state the
amended recommendation rule of the candidate generator). -/
def firstIdxWhere (p : α → Bool) : List α → Option Nat
  | [] => none
  | x :: xs => if p x then some 0 else (firstIdxWhere p xs).map (· + 1)

/-- A team unrelated by name but sharing birth year, gender and club with
the counterexample query. -/
def candTeamA : TeamR :=
  ⟨0, "different team", some 2013, some "Boys", some "Blue", some "pass", none⟩

/-- A team whose canonical name is fuzzy-close to the counterexample
query. -/
def candTeamB : TeamR :=
  ⟨1, "pass fc 2013b whitee", none, none, none, none, none⟩

/-- Database state of the candidate-generator counterexample. -/
def candState : DBState := ⟨[candTeamA, candTeamB], [], []⟩

/-- External similarity scorer of the counterexample: 97 for the one
close pair, 0 otherwise (any scorer value is reachable, the library is a
parameter of the embedding). -/
def candScorer : String → String → Nat := fun q c =>
  if q == "pass fc 2013b white" && c == "pass fc 2013b whitee" then 97 else 0

/-- A lone existing team for the fuzzy-threshold experiments. -/
def fuzzTeam : TeamR := ⟨0, "zzzz club", none, none, none, none, none⟩

/-- State holding only `fuzzTeam`. -/
def fuzzState : DBState := ⟨[fuzzTeam], [], []⟩

/-- A scorer returning 85 for every pair. -/
def scorer85 : String → String → Nat := fun _ _ => 85

/-- A scorer returning 84 for every pair. -/
def scorer84 : String → String → Nat := fun _ _ => 84

/-- A U12 appearance row (progression witness). -/
def rowU12 : SeasonRow :=
  ⟨"U12 Boys 3rd Division", 7, "Fall 2021", 2021, "Fall", "NUSC 2013B",
   3, 1, 0, 9, 10, 4⟩

/-- A U11 appearance row (progression witness). -/
def rowU11 : SeasonRow :=
  ⟨"U11 Boys 3rd Division", 5, "Fall 2020", 2020, "Fall", "NUSC 2013B",
   2, 2, 0, 6, 8, 8⟩

/-- A row whose division name carries no age-group token. -/
def rowNoAge : SeasonRow :=
  ⟨"Premier Division", 9, "Spring 2021", 2021, "Spring", "NUSC 2013B",
   0, 0, 0, 0, 0, 0⟩

/-- Rows of the progression witness, inserted in descending age order. -/
def rowsC : List SeasonRow := [rowU12, rowNoAge, rowU11]

/-- The report computed on the witness rows. -/
def recC : ProgressionRecord :=
  match track_team_progression 10 14 rowsC with
  | some r => r
  | none => ⟨[], 0, 0⟩

/-- A word produced by splitting: nonempty and whitespace-free. -/
def GoodWord (w : List Char) : Prop :=
  w ≠ [] ∧ ∀ c ∈ w, wsChar c = false

/-- All words nonempty and whitespace-free. -/
def GoodWords (ws : List (List Char)) : Prop := ∀ w ∈ ws, GoodWord w

end GVSA

namespace GVSA

/-! ### Theorems: C2 and C10 -/

/-- C2: for every birth year and season, the age-group calculator uses
cutoff year = season year for Fall and season year - 1 for Spring,
computes the U-age as (cutoff - birth) + 1, and is absent exactly when
that U-age leaves `[5, 19]`; the three worked examples from the spec
hold. -/
theorem C2_age_group_cutoff :
    (∀ birth season : Int,
      calculate_age_group birth season "Fall" =
        (if season - birth + 1 < 5 ∨ season - birth + 1 > 19 then none
         else some (season - birth + 1, season - birth + 1))) ∧
    (∀ birth season : Int,
      calculate_age_group birth season "Spring" =
        (if season - 1 - birth + 1 < 5 ∨ season - 1 - birth + 1 > 19 then none
         else some (season - 1 - birth + 1, season - 1 - birth + 1))) ∧
    calculate_age_group 2013 2020 "Fall" = some (8, 8) ∧
    calculate_age_group 2013 2021 "Spring" = some (8, 8) ∧
    calculate_age_group 2013 2021 "Fall" = some (9, 9) := by
  refine ⟨?_, ?_, by decide, by decide, by decide⟩
  · intro birth season
    have h : strUpper "Fall" = "FALL" := rfl
    simp only [calculate_age_group, h]
    simp
  · intro birth season
    have h : strUpper "Spring" = "SPRING" := rfl
    simp only [calculate_age_group, h]
    simp

/-- C10: for every input, `calculate_age_group` returns either absent or a
pair with equal components lying in `[5, 19]`; it never produces a
multi-age window. -/
theorem C10_age_group_single_window :
    ∀ (birth season : Int) (season_type : String),
      calculate_age_group birth season season_type = none ∨
      ∃ a : Int, calculate_age_group birth season season_type = some (a, a) ∧
        5 ≤ a ∧ a ≤ 19 := by
  intro birth season season_type
  simp only [calculate_age_group]
  split
  · split
    · exact Or.inl rfl
    · rename_i h
      push_neg at h
      exact Or.inr ⟨_, rfl, h.1, h.2⟩
  · split
    · split
      · exact Or.inl rfl
      · rename_i h
        push_neg at h
        exact Or.inr ⟨_, rfl, h.1, h.2⟩
    · split
      · exact Or.inl rfl
      · rename_i h
        push_neg at h
        exact Or.inr ⟨_, rfl, h.1, h.2⟩

/-! ### Parser lemmas -/

theorem inferCentury_pos (v : Nat) :
    (if v ≤ 30 then 2000 + (v : Int) else 1900 + (v : Int)) ≠ 0 := by
  split <;> omega

theorem findPat1_nil (i : Nat) : findPat1 [] i = none := rfl

theorem findPat2_nil (i : Nat) : findPat2 [] i = none := rfl

theorem findPat3_nil (i : Nat) : findPat3 [] i = none := rfl

theorem findPat4_ge_2000 (l : List Char) :
    ∀ i b st v, findPat4 l i b = some (st, v) → 2000 ≤ v := by
  induction l with
  | nil => intro i b st v h; simp [findPat4] at h
  | cons c cs ih =>
    intro i b st v h
    simp only [findPat4] at h
    split at h
    · rename_i m heq
      split at heq
      · exact absurd heq (by simp)
      · split at heq
        · split at heq
          · rw [Option.some_inj] at heq
            subst heq
            rw [Option.some_inj] at h
            simp only [Prod.ext_iff] at h
            omega
          · exact absurd heq (by simp)
        · exact absurd heq (by simp)
    · exact ih _ _ _ _ h

theorem applyPat4_none (name : List Char) (r : ParseResult)
    (h : findPat4 name 0 false = none) : applyPat4 name r = r := by
  simp only [applyPat4, h]

theorem applyPat4_some (name : List Char) (r : ParseResult) (st v : Nat)
    (h : findPat4 name 0 false = some (st, v)) :
    (applyPat4 name r).parsed = true ∧
    (applyPat4 name r).birth_year = some (v : Int) := by
  have hv : 2000 ≤ v := findPat4_ge_2000 name 0 false st v h
  have hTruthy : ((v : Int) != 0) = true := by
    simp only [bne_iff_ne, ne_eq]
    omega
  simp only [applyPat4, h]
  cases hg : genderFromContext name <;>
    cases hc : clubBefore name st <;>
    cases hd : designationAfter name (st + 4) <;>
    simp [pyTruthyInt, hTruthy]

/-- C5: whenever either apostrophe pattern of the parser matches, the
birth year is obtained from the two-digit value by century inference
(2000 + value when the value is at most 30, 1900 + value otherwise), and
the CATS FC example parses to birth year 2004, club CATS FC, designation
BLACK and no gender. -/
theorem C5_apostrophe_century :
    (∀ v : Nat, (v ≤ 30 → inferCentury v = 2000 + (v : Int)) ∧
      (30 < v → inferCentury v = 1900 + (v : Int))) ∧
    (∀ (name : String) (start v : Nat) (g : Char),
      findPat1 (pyStrip name.data) 0 = some (start, v, g) →
      (parse_team_name name).birth_year = some (inferCentury v)) ∧
    (∀ (name : String) (start v : Nat),
      findPat1 (pyStrip name.data) 0 = none →
      findPat2 (pyStrip name.data) 0 = none →
      findPat3 (pyStrip name.data) 0 = some (start, v) →
      (parse_team_name name).birth_year = some (inferCentury v)) ∧
    parse_team_name catsName =
      ⟨some "CATS FC", some 2004, none, some "BLACK", catsName, true⟩ := by
  refine ⟨?_, ?_, ?_, by decide⟩
  · intro v
    refine ⟨fun hv => ?_, fun hv => ?_⟩
    · simp [inferCentury, hv]
    · rw [inferCentury, if_neg (by omega)]
  · intro name start v g h
    have hne : (pyStrip name.data).isEmpty = false := by
      cases hs : pyStrip name.data with
      | nil => rw [hs, findPat1_nil] at h; exact absurd h (by simp)
      | cons a l => simp
    simp only [parse_team_name, hne, Bool.false_eq_true, if_false, h,
      inferCentury]
  · intro name start v h1 h2 h3
    have hne : (pyStrip name.data).isEmpty = false := by
      cases hs : pyStrip name.data with
      | nil => rw [hs, findPat3_nil] at h3; exact absurd h3 (by simp)
      | cons a l => simp
    have hTruthy :
        pyTruthyInt (some (if v ≤ 30 then 2000 + (v : Int) else 1900 + (v : Int)))
          = true := by
      simp only [pyTruthyInt, bne_iff_ne, ne_eq]
      exact inferCentury_pos v
    simp only [parse_team_name, hne, Bool.false_eq_true, if_false, h1, h2, h3,
      hTruthy, if_true, inferCentury]

/-- C5 witness: the second apostrophe pattern fires on the CATS FC
example and century inference yields 2004. -/
theorem C5_apostrophe_century_witness :
    (parse_team_name catsName).birth_year = some (inferCentury 4) :=
  C5_apostrophe_century.2.2.1 catsName 8 4 (by decide) (by decide) (by decide)

/-- C9: for every input string, the parser reports success exactly when a
birth year was extracted; a successful parse can leave club, gender and
designation all unset (bare apostrophe-year example); empty or
whitespace-only input yields an unparsed result with every field
unset. -/
theorem C9_parsed_iff_birth_year :
    (∀ s : String,
      ((parse_team_name s).parsed = true ↔
        (parse_team_name s).birth_year ≠ none)) ∧
    (∀ s : String, pyStrip s.data = [] →
      parse_team_name s = ⟨none, none, none, none, "", false⟩) ∧
    parse_team_name bareYearName =
      ⟨none, some 2004, none, none, bareYearName, true⟩ ∧
    parse_team_name "" = ⟨none, none, none, none, "", false⟩ ∧
    parse_team_name "   " = ⟨none, none, none, none, "", false⟩ := by
  refine ⟨?_, ?_, by decide, by decide, by decide⟩
  · intro s
    by_cases he : (pyStrip s.data).isEmpty
    · simp only [parse_team_name, he, if_true]
      simp
    · have hne : (pyStrip s.data).isEmpty = false := by
        simpa using he
      simp only [parse_team_name, hne, Bool.false_eq_true, if_false]
      cases h1 : findPat1 (pyStrip s.data) 0 with
      | some m =>
        obtain ⟨st1, v1, g1⟩ := m
        simp
      | none =>
        cases h2 : findPat2 (pyStrip s.data) 0 with
        | some m =>
          obtain ⟨st2, v2, g2⟩ := m
          simp
        | none =>
          cases h3 : findPat3 (pyStrip s.data) 0 with
          | some m =>
            obtain ⟨st3, v3⟩ := m
            have hTruthy :
                pyTruthyInt (some (if v3 ≤ 30 then 2000 + (v3 : Int)
                  else 1900 + (v3 : Int))) = true := by
              simp only [pyTruthyInt, bne_iff_ne, ne_eq]
              exact inferCentury_pos v3
            simp only [hTruthy, if_true]
            simp
          | none =>
            cases h4 : findPat4 (pyStrip s.data) 0 false with
            | some m =>
              obtain ⟨st4, v4⟩ := m
              have := applyPat4_some (pyStrip s.data)
                ⟨none, none, none, none, String.mk (pyStrip s.data), false⟩
                st4 v4 h4
              rw [this.1, this.2]
              simp
            | none =>
              rw [applyPat4_none _ _ h4]
              simp
  · intro s h
    simp only [parse_team_name, h]
    simp

/-- C9 witness: a whitespace-only input yields the unparsed empty
result. -/
theorem C9_parsed_iff_birth_year_witness :
    parse_team_name "  " = ⟨none, none, none, none, "", false⟩ :=
  C9_parsed_iff_birth_year.2.1 "  " (by decide)

/-! ### C3: structured attribute match -/

/-- C3: when structured candidates exist, a parsed designation selects
the first candidate whose stored designation matches case-insensitively,
falling back to the first candidate when none matches exactly; without a
parsed designation the first candidate is returned; the
designation-added-later example resolves to the stored team. -/
theorem C3_structured_match :
    (∀ (birthYear : Int) (gender club : String)
      (designation : Option String) (teams : List TeamR),
      (pyTruthyStr designation = true →
        find_team_by_birth_year birthYear gender club designation teams =
          ((structuredCandidates birthYear gender club teams).find?
              (designationMatches designation)).or
            (structuredCandidates birthYear gender club teams).head?) ∧
      (pyTruthyStr designation = false →
        find_team_by_birth_year birthYear gender club designation teams =
          (structuredCandidates birthYear gender club teams).head?)) ∧
    find_team_by_birth_year 2013 "Boys" "NUSC" (some "Green")
      [⟨7, "nusc 2013b", some 2013, some "Boys", none, some "nusc", none⟩] =
      some ⟨7, "nusc 2013b", some 2013, some "Boys", none, some "nusc", none⟩ := by
  refine ⟨?_, by decide⟩
  intro birthYear gender club designation teams
  constructor
  · intro hd
    simp only [find_team_by_birth_year, hd]
    cases hc : structuredCandidates birthYear gender club teams with
    | nil => simp
    | cons c rest =>
      simp only [if_true, List.head?_cons]
      cases hf : (c :: rest).find? (designationMatches designation) <;>
        simp [hf, Option.or]
  · intro hd
    simp only [find_team_by_birth_year, hd]
    cases hc : structuredCandidates birthYear gender club teams with
    | nil => simp
    | cons c rest => simp

/-- C3 witness: with a parsed designation and one stored candidate whose
designation is unset, the fall-back branch returns the first
candidate. -/
theorem C3_structured_match_witness :
    find_team_by_birth_year 2013 "Boys" "NUSC" (some "Green")
      [⟨7, "nusc 2013b", some 2013, some "Boys", none, some "nusc", none⟩] =
      ((structuredCandidates 2013 "Boys" "NUSC"
          [⟨7, "nusc 2013b", some 2013, some "Boys", none, some "nusc", none⟩]).find?
          (designationMatches (some "Green"))).or
        (structuredCandidates 2013 "Boys" "NUSC"
          [⟨7, "nusc 2013b", some 2013, some "Boys", none, some "nusc", none⟩]).head? :=
  (C3_structured_match.1 2013 "Boys" "NUSC" (some "Green")
    [⟨7, "nusc 2013b", some 2013, some "Boys", none, some "nusc", none⟩]).1
    (by decide)

/-! ### C4: fuzzy fallback threshold -/

theorem extractOne_mem (scorer : String → String → Nat) (q : String) :
    ∀ (choices : List String) (n : String) (sc : Nat),
      extractOne scorer q choices = some (n, sc) → n ∈ choices := by
  intro choices
  induction choices with
  | nil => intro n sc h; simp [extractOne] at h
  | cons c cs ih =>
    intro n sc h
    simp only [extractOne] at h
    split at h
    · simp only [Option.some_inj, Prod.ext_iff] at h
      simp [h.1]
    · rename_i n0 s0 heq
      split at h
      · simp only [Option.some_inj, Prod.ext_iff] at h
        simp [h.1]
      · simp only [Option.some_inj, Prod.ext_iff] at h
        obtain ⟨h1, h2⟩ := h
        subst h1
        exact List.mem_cons_of_mem _ (ih _ _ heq)

/-- C4: the fuzzy fallback accepts the best-scoring existing team exactly
when the similarity score reaches 85: with the best score available, the
matcher returns the team carrying the best-scoring canonical name if the
score is at least 85 and nothing below that; concretely, a uniform score
of 85 resolves to the existing team without creating one, while a
uniform score of 84 makes the resolver create a new team. -/
theorem C4_fuzzy_threshold :
    (∀ (scorer : String → String → Nat) (team_name : String)
      (teams : List TeamR) (n : String) (sc : Nat),
      extractOne scorer (normalize_name team_name)
        (teams.map (·.canonical_name)) = some (n, sc) →
      (85 ≤ sc →
        ∃ t, find_matching_team scorer team_name teams = some t ∧
          t.canonical_name = n) ∧
      (sc < 85 → find_matching_team scorer team_name teams = none)) ∧
    (get_or_create_team scorer85 "alpha beta" fuzzState).1 = fuzzTeam ∧
    (get_or_create_team scorer85 "alpha beta" fuzzState).2.1 = false ∧
    (get_or_create_team scorer84 "alpha beta" fuzzState).2.1 = true := by
  refine ⟨?_, by decide, by decide, by decide⟩
  intro scorer team_name teams n sc h
  have hne : teams ≠ [] := by
    intro hnil
    subst hnil
    simp [extractOne] at h
  have hmem : n ∈ teams.map (·.canonical_name) :=
    extractOne_mem scorer (normalize_name team_name) _ n sc h
  obtain ⟨t0, ht0, hcan⟩ := List.mem_map.mp hmem
  constructor
  · intro hge
    have hex : ∃ t ∈ teams, (fun t => t.canonical_name == n) t = true :=
      ⟨t0, ht0, by simp [hcan]⟩
    obtain ⟨t1, ht1⟩ :=
      Option.isSome_iff_exists.mp (List.find?_isSome.mpr hex)
    refine ⟨t1, ?_, ?_⟩
    · cases teams with
      | nil => exact absurd rfl hne
      | cons a l =>
        simp only [find_matching_team, h, if_pos hge]
        exact ht1
    · have := List.find?_some ht1
      simpa using this
  · intro hlt
    cases teams with
    | nil => exact absurd rfl hne
    | cons a l =>
      simp only [find_matching_team, h]
      rw [if_neg (by omega)]

/-- C4 witness: at uniform score 85 the matcher returns an existing
team. -/
theorem C4_fuzzy_threshold_witness :
    find_matching_team scorer85 "alpha beta" fuzzState.teams ≠ none := by
  obtain ⟨t, ht, _⟩ :=
    (C4_fuzzy_threshold.1 scorer85 "alpha beta" fuzzState.teams
      "zzzz club" 85 (by decide)).1 (by decide)
  rw [ht]
  simp

/-! ### C1: idempotent resolution and TeamSeason upsert -/

theorem new_team_attrs_canonical (normalized : String) (nid : Nat)
    (parsed : ParseResult) :
    (new_team_attrs normalized nid parsed).canonical_name = normalized := by
  unfold new_team_attrs
  split <;> rfl

theorem new_team_row_canonical (team_name : String) (teams : List TeamR)
    (clubs : List ClubR) :
    (new_team_row team_name teams clubs).1.canonical_name =
      normalize_name team_name := by
  unfold new_team_row
  generalize parse_team_name team_name = p
  generalize extract_club_name team_name = e
  dsimp only
  split <;> simp [new_team_attrs_canonical, apply_ite]

theorem get_or_create_team_core_stable (scorer : String → String → Nat)
    (name : String) (teams : List TeamR) (clubs : List ClubR) :
    get_or_create_team_core scorer name
        (get_or_create_team_core scorer name teams clubs).2.2.1
        (get_or_create_team_core scorer name teams clubs).2.2.2 =
      ((get_or_create_team_core scorer name teams clubs).1, false,
       (get_or_create_team_core scorer name teams clubs).2.2) := by
  cases h1 : teams.find? (fun t => t.canonical_name == normalize_name name) with
  | some t => simp only [get_or_create_team_core, h1]
  | none =>
    cases h2 : structured_lookup name teams with
    | some t => simp only [get_or_create_team_core, h1, h2]
    | none =>
      cases h3 : find_matching_team scorer name teams with
      | some t => simp only [get_or_create_team_core, h1, h2, h3]
      | none =>
        have hfind : (teams ++ [(new_team_row name teams clubs).1]).find?
            (fun t => t.canonical_name == normalize_name name) =
            some (new_team_row name teams clubs).1 := by
          rw [List.find?_append, h1]
          simp [List.find?, new_team_row_canonical]
        simp only [get_or_create_team_core, h1, h2, h3, hfind]

theorem get_or_create_team_stable (scorer : String → String → Nat)
    (name : String) (st : DBState) :
    get_or_create_team scorer name (get_or_create_team scorer name st).2.2 =
      ((get_or_create_team scorer name st).1, false,
        (get_or_create_team scorer name st).2.2) := by
  simp only [get_or_create_team]
  rw [get_or_create_team_core_stable]

theorem get_or_create_team_teamSeasons (scorer : String → String → Nat)
    (name : String) (st : DBState) (ts : List TeamSeasonR) :
    get_or_create_team scorer name { st with teamSeasons := ts } =
      ((get_or_create_team scorer name st).1,
       (get_or_create_team scorer name st).2.1,
       { (get_or_create_team scorer name st).2.2 with teamSeasons := ts }) :=
  rfl

theorem tsMatch_applyStats (i d : Nat) (td : TeamData) (ts : TeamSeasonR) :
    tsMatch i d (applyStats td ts) = tsMatch i d ts := rfl

theorem filter_updateFirst_length {α : Type} (p : α → Bool) (f : α → α)
    (hpf : ∀ a, p a = true → p (f a) = true) :
    ∀ l : List α,
      ((updateFirst p f l).filter p).length = (l.filter p).length := by
  intro l
  induction l with
  | nil => rfl
  | cons x xs ih =>
    cases hx : p x with
    | true => simp [updateFirst, hx, List.filter_cons, hpf x hx]
    | false => simp [updateFirst, hx, List.filter_cons, ih]

theorem find?_updateFirst {α : Type} (p : α → Bool) (f : α → α)
    (hpf : ∀ a, p a = true → p (f a) = true) :
    ∀ (l : List α) (a : α), l.find? p = some a →
      (updateFirst p f l).find? p = some (f a) := by
  intro l
  induction l with
  | nil => intro a h; simp [List.find?] at h
  | cons x xs ih =>
    intro a h
    cases hx : p x with
    | true =>
      rw [List.find?_cons_of_pos xs hx] at h
      rw [Option.some_inj] at h
      subst h
      simp only [updateFirst, hx, if_true]
      exact List.find?_cons_of_pos xs (hpf x hx)
    | false =>
      rw [List.find?_cons_of_neg xs (by simp [hx])] at h
      simp only [updateFirst, hx, Bool.false_eq_true, if_false]
      rw [List.find?_cons_of_neg (updateFirst p f xs) (by simp [hx])]
      exact ih a h

theorem countTS_pos_of_find? (st : DBState) (i d : Nat) (ts0 : TeamSeasonR)
    (h : st.teamSeasons.find? (tsMatch i d) = some ts0) :
    1 ≤ countTS i d st := by
  have hmem := List.mem_of_find?_eq_some h
  have hpred := List.find?_some h
  have : ts0 ∈ st.teamSeasons.filter (tsMatch i d) :=
    List.mem_filter.mpr ⟨hmem, hpred⟩
  have := List.length_pos.mpr (List.ne_nil_of_mem this)
  simpa [countTS] using this

theorem countTS_zero_of_find?_none (st : DBState) (i d : Nat)
    (h : st.teamSeasons.find? (tsMatch i d) = none) :
    countTS i d st = 0 := by
  have : st.teamSeasons.filter (tsMatch i d) = [] := by
    rw [List.filter_eq_nil_iff]
    intro a ha
    have := List.find?_eq_none.mp h a ha
    simpa using this
  simp [countTS, this]

theorem tsMatch_preserved (i d : Nat) (td : TeamData) :
    ∀ a, tsMatch i d a = true → tsMatch i d (applyStats td a) = true := by
  intro a ha
  rw [tsMatch_applyStats]
  exact ha

/-- C1: resolving the same raw name a second time returns the same Team
with isNew = false and leaves the database unchanged; saving standings
rows carrying that name for the same division twice keeps exactly the
TeamSeason rows of the first save for that (team, division) pair — the
second save updates the existing row (its statistics become those of the
second data row) instead of inserting another one, and after the first
save at least one such row exists. -/
theorem C1_resolve_and_upsert_idempotent :
    ∀ (scorer : String → String → Nat) (name : String) (st : DBState),
      (st.teams.map (fun t => t.canonical_name)).Nodup →
      get_or_create_team scorer name
          (get_or_create_team scorer name st).2.2 =
        ((get_or_create_team scorer name st).1, false,
         (get_or_create_team scorer name st).2.2) ∧
      (∀ (division : Nat) (td1 td2 : TeamData),
        td1.team_name = name → td2.team_name = name →
        countTS (get_or_create_team scorer name st).1.id division
            (save_standings_team scorer division td2
              (save_standings_team scorer division td1 st)) =
          countTS (get_or_create_team scorer name st).1.id division
            (save_standings_team scorer division td1 st) ∧
        1 ≤ countTS (get_or_create_team scorer name st).1.id division
            (save_standings_team scorer division td1 st) ∧
        ∃ row,
          (save_standings_team scorer division td2
              (save_standings_team scorer division td1 st)).teamSeasons.find?
              (tsMatch (get_or_create_team scorer name st).1.id division) =
            some row ∧
          row.wins = td2.wins ∧ row.losses = td2.losses ∧
          row.ties = td2.ties ∧ row.points = td2.points) := by
  intro scorer name st hu
  refine ⟨get_or_create_team_stable scorer name st, ?_⟩
  intro division td1 td2 htd1 htd2
  have hstable := get_or_create_team_stable scorer name st
  generalize hg : get_or_create_team scorer name st = r at *
  obtain ⟨t, bNew, st1⟩ := r
  dsimp only at hstable ⊢
  have hsave1 : save_standings_team scorer division td1 st =
      (match st1.teamSeasons.find? (tsMatch t.id division) with
       | none =>
         { st1 with teamSeasons := st1.teamSeasons ++
             [⟨t.id, division, name, td1.wins, td1.losses, td1.ties,
               td1.forfeits, td1.points, td1.goals_for, td1.goals_against,
               td1.goal_differential⟩] }
       | some _ =>
         { st1 with
           teamSeasons :=
             updateFirst (tsMatch t.id division) (applyStats td1)
               st1.teamSeasons }) := by
    simp only [save_standings_team, htd1, hg]
  cases hf : st1.teamSeasons.find? (tsMatch t.id division) with
  | none =>
    set row1 : TeamSeasonR :=
      ⟨t.id, division, name, td1.wins, td1.losses, td1.ties, td1.forfeits,
       td1.points, td1.goals_for, td1.goals_against, td1.goal_differential⟩
      with hrow1
    have hs1 : save_standings_team scorer division td1 st =
        { st1 with teamSeasons := st1.teamSeasons ++ [row1] } := by
      rw [hsave1, hf]
    have hpred1 : tsMatch t.id division row1 = true := by
      simp [tsMatch, hrow1]
    have hfind1 : (st1.teamSeasons ++ [row1]).find? (tsMatch t.id division) =
        some row1 := by
      rw [List.find?_append, hf]
      simp [List.find?, hpred1]
    have hgoc1 : get_or_create_team scorer name
        { st1 with teamSeasons := st1.teamSeasons ++ [row1] } =
        (t, false, { st1 with teamSeasons := st1.teamSeasons ++ [row1] }) := by
      rw [get_or_create_team_teamSeasons, hstable]
    have hsave2 : save_standings_team scorer division td2
        { st1 with teamSeasons := st1.teamSeasons ++ [row1] } =
        { st1 with
          teamSeasons :=
            updateFirst (tsMatch t.id division) (applyStats td2)
              (st1.teamSeasons ++ [row1]) } := by
      simp only [save_standings_team, htd2, hgoc1]
      rw [hfind1]
    have hcount1 : countTS t.id division
        { st1 with teamSeasons := st1.teamSeasons ++ [row1] } = 1 := by
      have h0 : countTS t.id division st1 = 0 :=
        countTS_zero_of_find?_none st1 t.id division hf
      simp only [countTS] at h0 ⊢
      rw [List.filter_append]
      simp [List.filter, hpred1, h0]
    rw [hs1, hsave2]
    refine ⟨?_, ?_, ?_⟩
    · simp only [countTS]
      exact filter_updateFirst_length _ _ (tsMatch_preserved t.id division td2)
        _
    · rw [hcount1]
    · refine ⟨applyStats td2 row1, ?_, rfl, rfl, rfl, rfl⟩
      exact find?_updateFirst _ _ (tsMatch_preserved t.id division td2) _ _
        hfind1
  | some ts0 =>
    have hs1 : save_standings_team scorer division td1 st =
        { st1 with
          teamSeasons :=
            updateFirst (tsMatch t.id division) (applyStats td1)
              st1.teamSeasons } := by
      rw [hsave1, hf]
    have hfind1 : (updateFirst (tsMatch t.id division) (applyStats td1)
        st1.teamSeasons).find? (tsMatch t.id division) =
        some (applyStats td1 ts0) :=
      find?_updateFirst _ _ (tsMatch_preserved t.id division td1) _ _ hf
    have hgoc1 : get_or_create_team scorer name
        { st1 with
          teamSeasons :=
            updateFirst (tsMatch t.id division) (applyStats td1)
              st1.teamSeasons } =
        (t, false,
         { st1 with
           teamSeasons :=
             updateFirst (tsMatch t.id division) (applyStats td1)
               st1.teamSeasons }) := by
      rw [get_or_create_team_teamSeasons, hstable]
    have hsave2 : save_standings_team scorer division td2
        { st1 with
          teamSeasons :=
            updateFirst (tsMatch t.id division) (applyStats td1)
              st1.teamSeasons } =
        { st1 with
          teamSeasons :=
            updateFirst (tsMatch t.id division) (applyStats td2)
              (updateFirst (tsMatch t.id division) (applyStats td1)
                st1.teamSeasons) } := by
      simp only [save_standings_team, htd2, hgoc1]
      rw [hfind1]
    rw [hs1, hsave2]
    refine ⟨?_, ?_, ?_⟩
    · simp only [countTS]
      exact filter_updateFirst_length _ _ (tsMatch_preserved t.id division td2)
        _
    · have h1 : countTS t.id division
          { st1 with
            teamSeasons :=
              updateFirst (tsMatch t.id division) (applyStats td1)
                st1.teamSeasons } = countTS t.id division st1 := by
        simp only [countTS]
        exact filter_updateFirst_length _ _
          (tsMatch_preserved t.id division td1) _
      rw [h1]
      exact countTS_pos_of_find? st1 t.id division ts0 hf
    · refine ⟨applyStats td2 (applyStats td1 ts0), ?_, rfl, rfl, rfl, rfl⟩
      exact find?_updateFirst _ _ (tsMatch_preserved t.id division td2) _ _
        hfind1

/-! ### Stable sort lemmas -/

theorem mem_insertStable (le : α → α → Bool) (x z : α) :
    ∀ l : List α, z ∈ insertStable le x l ↔ z = x ∨ z ∈ l := by
  intro l
  induction l with
  | nil => simp [insertStable]
  | cons y ys ih =>
    simp only [insertStable]
    split
    · simp only [List.mem_cons, ih]
      tauto
    · simp only [List.mem_cons]

theorem mem_pySort (le : α → α → Bool) (z : α) :
    ∀ l : List α, z ∈ pySort le l ↔ z ∈ l := by
  intro l
  induction l with
  | nil => simp [pySort]
  | cons y ys ih =>
    simp only [pySort, mem_insertStable, List.mem_cons, ih]

theorem length_insertStable (le : α → α → Bool) (x : α) :
    ∀ l : List α, (insertStable le x l).length = l.length + 1 := by
  intro l
  induction l with
  | nil => rfl
  | cons y ys ih =>
    simp only [insertStable]
    split
    · simp [ih]
    · simp

theorem length_pySort (le : α → α → Bool) :
    ∀ l : List α, (pySort le l).length = l.length := by
  intro l
  induction l with
  | nil => rfl
  | cons y ys ih => simp [pySort, length_insertStable, ih]

theorem pairwise_insertStable (le : α → α → Bool)
    (htrans : ∀ a b c, le a b = true → le b c = true → le a c = true)
    (htotal : ∀ a b, le a b = true ∨ le b a = true) (x : α) :
    ∀ l : List α, l.Pairwise (fun a b => le a b = true) →
      (insertStable le x l).Pairwise (fun a b => le a b = true) := by
  intro l
  induction l with
  | nil => intro _; simp [insertStable]
  | cons y ys ih =>
    intro h
    rw [List.pairwise_cons] at h
    simp only [insertStable]
    split
    · rename_i hcond
      rw [Bool.and_eq_true] at hcond
      rw [List.pairwise_cons]
      refine ⟨?_, ih h.2⟩
      intro z hz
      rw [mem_insertStable] at hz
      cases hz with
      | inl hzx => subst hzx; exact hcond.1
      | inr hzys => exact h.1 z hzys
    · rename_i hcond
      have hxy : le x y = true := by
        rcases htotal x y with hxy | hyx
        · exact hxy
        · by_cases hxy2 : le x y = true
          · exact hxy2
          · exact absurd (by simp [hyx, hxy2]) hcond
      rw [List.pairwise_cons]
      constructor
      · intro z hz
        rw [List.mem_cons] at hz
        cases hz with
        | inl hzy => subst hzy; exact hxy
        | inr hzys => exact htrans x y z hxy (h.1 z hzys)
      · rw [List.pairwise_cons]
        exact h

theorem pairwise_pySort (le : α → α → Bool)
    (htrans : ∀ a b c, le a b = true → le b c = true → le a c = true)
    (htotal : ∀ a b, le a b = true ∨ le b a = true) :
    ∀ l : List α, (pySort le l).Pairwise (fun a b => le a b = true) := by
  intro l
  induction l with
  | nil => simp [pySort]
  | cons y ys ih =>
    exact pairwise_insertStable le htrans htotal y _ ih

theorem keyLe_trans : ∀ a b c : Nat × Nat,
    keyLe a b = true → keyLe b c = true → keyLe a c = true := by
  intro a b c hab hbc
  simp only [keyLe, decide_eq_true_eq] at hab hbc ⊢
  omega

theorem keyLe_total : ∀ a b : Nat × Nat,
    keyLe a b = true ∨ keyLe b a = true := by
  intro a b
  simp only [keyLe, decide_eq_true_eq]
  omega

theorem appLe_trans : ∀ a b c : Appearance,
    appLe a b = true → appLe b c = true → appLe a c = true := by
  intro a b c hab hbc
  simp only [appLe, decide_eq_true_eq] at hab hbc ⊢
  rcases hab with h1 | ⟨h1, h1s⟩ <;> rcases hbc with h2 | ⟨h2, h2s⟩
  · left; omega
  · left; omega
  · left; omega
  · right; exact ⟨by omega, le_trans h1s h2s⟩

theorem appLe_total : ∀ a b : Appearance,
    appLe a b = true ∨ appLe b a = true := by
  intro a b
  simp only [appLe, decide_eq_true_eq]
  rcases lt_trichotomy a.year b.year with h | h | h
  · left; left; exact h
  · rcases le_total a.season_type b.season_type with hs | hs
    · left; right; exact ⟨h, hs⟩
    · right; right; exact ⟨h.symm, hs⟩
  · right; left; exact h

/-! ### C7 -/

theorem buildMap_skip_tokenless (lo hi : Nat) (pre post : List SeasonRow)
    (r : SeasonRow) (h : extract_age_group r.division_name = none) :
    buildMap lo hi (pre ++ r :: post) = buildMap lo hi (pre ++ post) := by
  simp only [buildMap, List.foldl_append, List.foldl_cons, h]

/-- C7: a TeamSeason row whose division name yields no age-group token
does not affect the reported progression; a report exists exactly when
the team has at least two distinct age-group windows (and records their
number); windows are ordered ascending by minimum age; appearances in
each window are ordered by the (year, season type) tuple. -/
theorem C7_progression_grouping :
    (∀ (lo hi : Nat) (pre post : List SeasonRow) (r : SeasonRow),
      extract_age_group r.division_name = none →
      (track_team_progression lo hi (pre ++ r :: post)).map
          (fun rec => (rec.progression, rec.age_groups_played)) =
        (track_team_progression lo hi (pre ++ post)).map
          (fun rec => (rec.progression, rec.age_groups_played))) ∧
    (∀ (lo hi : Nat) (rows : List SeasonRow) (rec : ProgressionRecord),
      track_team_progression lo hi rows = some rec →
      2 ≤ rec.age_groups_played ∧
      rec.age_groups_played = rec.progression.length ∧
      rec.progression.Pairwise (fun e1 e2 => e1.age_min ≤ e2.age_min) ∧
      ∀ e ∈ rec.progression,
        e.appearances.Pairwise (fun a b => appLe a b = true)) := by
  constructor
  · intro lo hi pre post r h
    have hbm := buildMap_skip_tokenless lo hi pre post r h
    by_cases hpp : (pre ++ post).isEmpty
    · have hpre : pre = [] := by
        cases pre with
        | nil => rfl
        | cons a l => simp at hpp
      have hpost : post = [] := by
        cases post with
        | nil => rfl
        | cons a l => simp [hpre] at hpp
      subst hpre hpost
      simp only [List.nil_append, track_team_progression, List.isEmpty_cons,
        Bool.false_eq_true, if_false, List.isEmpty_nil, if_true]
      have : buildMap lo hi [r] = buildMap lo hi [] := hbm
      rw [this]
      simp [buildMap]
    · have hne : ((pre ++ r :: post).isEmpty) = false := by
        cases pre <;> simp
      have hne2 : ((pre ++ post).isEmpty) = false := by
        simpa using hpp
      simp only [track_team_progression, hne, hne2, Bool.false_eq_true,
        if_false, hbm]
      split <;> simp
  · intro lo hi rows rec h
    simp only [track_team_progression] at h
    split at h
    · exact absurd h (by simp)
    · split at h
      · exact absurd h (by simp)
      · rename_i hlen
        rw [Option.some_inj] at h
        subst h
        refine ⟨?_, ?_, ?_, ?_⟩
        · dsimp only
          omega
        · simp [length_pySort, List.length_map]
        · have hsorted := pairwise_pySort keyLe keyLe_trans keyLe_total
            ((buildMap lo hi rows).map Prod.fst)
          refine List.Pairwise.map _ ?_ hsorted
          intro a b hab
          simp only [keyLe, decide_eq_true_eq] at hab
          dsimp only
          omega
        · intro e he
          rw [List.mem_map] at he
          obtain ⟨k, _, hk⟩ := he
          subst hk
          exact pairwise_pySort appLe appLe_trans appLe_total _

/-- C7 witness: on concrete rows holding U12, a tokenless row and U11 (in
that insertion order), the tokenless row is discarded and the report
lists two windows, U11 before U12, with sorted appearances. -/
theorem C7_progression_grouping_witness :
    (track_team_progression 10 14 [rowU12, rowNoAge, rowU11]).map
        (fun rec => (rec.progression, rec.age_groups_played)) =
      (track_team_progression 10 14 [rowU12, rowU11]).map
        (fun rec => (rec.progression, rec.age_groups_played)) ∧
    2 ≤ recC.age_groups_played ∧
    recC.progression.Pairwise (fun e1 e2 => e1.age_min ≤ e2.age_min) := by
  have h1 := C7_progression_grouping.1 10 14 [rowU12] [rowU11] rowNoAge
    (by decide)
  have h2 := C7_progression_grouping.2 10 14 rowsC recC (by rfl)
  exact ⟨h1, h2.1, h2.2.2.1⟩

/-! ### C6: candidate sorting and recommendation -/

theorem confLe_trans : ∀ a b c : CandI,
    decide (b.confidence ≤ a.confidence) = true →
    decide (c.confidence ≤ b.confidence) = true →
    decide (c.confidence ≤ a.confidence) = true := by
  intro a b c h1 h2
  simp only [decide_eq_true_eq] at h1 h2 ⊢
  omega

theorem confLe_total : ∀ a b : CandI,
    decide (b.confidence ≤ a.confidence) = true ∨
    decide (a.confidence ≤ b.confidence) = true := by
  intro a b
  simp only [decide_eq_true_eq]
  omega

theorem mem_pyEnum_snd {α : Type} :
    ∀ (l : List α) (i0 : Nat) (p : Nat × α), p ∈ pyEnum i0 l → p.2 ∈ l := by
  intro l
  induction l with
  | nil => intro i0 p h; simp [pyEnum] at h
  | cons x xs ih =>
    intro i0 p h
    simp only [pyEnum, List.mem_cons] at h
    cases h with
    | inl h => subst h; simp
    | inr h => exact List.mem_cons_of_mem _ (ih (i0 + 1) p h)

theorem get?_of_mem_pyEnum {α : Type} :
    ∀ (l : List α) (i : Nat) (c : α), (i, c) ∈ pyEnum 0 l →
      l.get? i = some c := by
  suffices h : ∀ (l : List α) (i0 i : Nat) (c : α),
      (i, c) ∈ pyEnum i0 l → i0 ≤ i ∧ l.get? (i - i0) = some c by
    intro l i c hm
    simpa using (h l 0 i c hm).2
  intro l
  induction l with
  | nil => intro i0 i c h; simp [pyEnum] at h
  | cons x xs ih =>
    intro i0 i c h
    simp only [pyEnum, List.mem_cons] at h
    rcases h with h | h
    · rw [Prod.ext_iff] at h
      obtain ⟨h1, h2⟩ := h
      subst h1
      subst h2
      simp
    · obtain ⟨h1, h2⟩ := ih (i0 + 1) i c h
      refine ⟨by omega, ?_⟩
      have : i - i0 = (i - (i0 + 1)) + 1 := by omega
      rw [this]
      simpa using h2

theorem filteredEnum_head {α : Type} (p : α → Bool) :
    ∀ (l : List α) (i0 : Nat),
      ((((pyEnum i0 l).filter (fun ic => p ic.2)).map Prod.fst).head?) =
        (firstIdxWhere p l).map (· + i0) := by
  intro l
  induction l with
  | nil => intro i0; rfl
  | cons x xs ih =>
    intro i0
    simp only [pyEnum, firstIdxWhere, List.filter_cons]
    cases hx : p x with
    | true => simp
    | false =>
      simp only [Bool.false_eq_true, if_false]
      rw [ih (i0 + 1)]
      cases hfi : firstIdxWhere p xs with
      | none => simp
      | some j => simp; omega

theorem firstIdxWhere_eq_none {α : Type} (p : α → Bool) :
    ∀ l : List α, firstIdxWhere p l = none ↔ ∀ c ∈ l, p c = false := by
  intro l
  induction l with
  | nil => simp [firstIdxWhere]
  | cons x xs ih =>
    simp only [firstIdxWhere]
    cases hx : p x with
    | true => simp [hx]
    | false => simp [hx, ih]

theorem firstIdxWhere_high_zero (sorted : List CandI)
    (hsort : sorted.Pairwise
      (fun a b => decide (b.confidence ≤ a.confidence) = true))
    (hex : ∃ c ∈ sorted, 90 ≤ c.confidence) :
    firstIdxWhere (fun c => decide (90 ≤ c.confidence)) sorted = some 0 := by
  cases sorted with
  | nil => simp at hex
  | cons x xs =>
    have hx : 90 ≤ x.confidence := by
      obtain ⟨c, hc, hc90⟩ := hex
      rw [List.mem_cons] at hc
      cases hc with
      | inl h => subst h; exact hc90
      | inr h =>
        rw [List.pairwise_cons] at hsort
        have := hsort.1 c h
        simp only [decide_eq_true_eq] at this
        omega
    simp [firstIdxWhere, hx]

/-- The boolean test of the code: confidence at least 90. -/
theorem high_as_firstIdx (sorted : List CandI) :
    ((((pyEnum 0 sorted).filter
        (fun ic => 90 ≤ ic.2.confidence)).map Prod.fst).head?) =
      firstIdxWhere (fun c => decide (90 ≤ c.confidence)) sorted := by
  have h := filteredEnum_head (fun c => decide (90 ≤ c.confidence)) sorted 0
  simp only [decide_eq_true_eq] at h
  rw [h]
  cases firstIdxWhere (fun c => decide (90 ≤ c.confidence)) sorted <;> simp

theorem preferred_as_firstIdx (sorted : List CandI) :
    ((((pyEnum 0 sorted).filter (fun ic => 90 ≤ ic.2.confidence)).map
        Prod.fst).filter (fun i =>
          match sorted.get? i with
          | some c => isPreferredType c
          | none => false)).head? =
      firstIdxWhere
        (fun c => decide (90 ≤ c.confidence) && isPreferredType c) sorted := by
  rw [List.filter_map]
  rw [List.filter_filter]
  rw [List.filter_congr (l := pyEnum 0 sorted)
    (q := fun ic => decide (90 ≤ ic.2.confidence) && isPreferredType ic.2) ?_]
  · have h := filteredEnum_head
      (fun c => decide (90 ≤ c.confidence) && isPreferredType c) sorted 0
    rw [h]
    cases firstIdxWhere
      (fun c => decide (90 ≤ c.confidence) && isPreferredType c) sorted <;>
      simp
  · intro p hp
    have hg : sorted.get? p.1 = some p.2 := by
      obtain ⟨i, c⟩ := p
      exact get?_of_mem_pyEnum sorted i c hp
    rw [Function.comp_apply, hg]
    rw [Bool.and_comm]

/-- C6 amended: the candidate list is sorted by descending confidence; no
recommendation on an empty list; when no candidate reaches confidence
90, the single best-scoring candidate (index 0) is recommended; when
some candidate reaches 90, the recommendation is the first sorted
candidate of an exact or structured match type with confidence at least
90 when one exists — even when a candidate of another type carries a
strictly higher confidence — and otherwise index 0, the
highest-confidence candidate.  The generator output inherits the sort
and the recommendation of the sort-and-recommend step. -/
theorem C6_recommendation_amended :
    (∀ cs : List CandI,
      ((sortAndRecommend cs).1).Pairwise
        (fun a b => b.confidence ≤ a.confidence) ∧
      (cs = [] → (sortAndRecommend cs).2 = none) ∧
      (cs ≠ [] → (∀ c ∈ cs, c.confidence < 90) →
        (sortAndRecommend cs).2 = some 0) ∧
      ((∃ c ∈ cs, 90 ≤ c.confidence) →
        (sortAndRecommend cs).2 =
          some ((firstIdxWhere
            (fun c => decide (90 ≤ c.confidence) && isPreferredType c)
            (sortAndRecommend cs).1).getD 0))) ∧
    (∀ (scorer : String → String → Nat) (st : DBState) (name : String),
      ((get_matching_candidates scorer st name).candidates.map
          (fun c => c.confidence)).Pairwise (fun a b => b ≤ a) ∧
      (get_matching_candidates scorer st name).recommended_match =
        (sortAndRecommend (buildCandidates scorer st name)).2) := by
  have hsorted : ∀ cs : List CandI,
      (pySort (fun a b => decide (b.confidence ≤ a.confidence)) cs).Pairwise
        (fun a b => b.confidence ≤ a.confidence) := by
    intro cs
    have := pairwise_pySort _ confLe_trans confLe_total cs
    exact this.imp (fun h => by simpa using h)
  constructor
  · intro cs
    refine ⟨hsorted cs, ?_, ?_, ?_⟩
    · intro h
      subst h
      rfl
    · intro hne hlow
      simp only [sortAndRecommend]
      set s := pySort (fun a b : CandI =>
        decide (b.confidence ≤ a.confidence)) cs with hs
      have hempty : s.isEmpty = false := by
        cases hsl : s with
        | nil =>
          have := length_pySort (fun a b : CandI =>
            decide (b.confidence ≤ a.confidence)) cs
          rw [← hs, hsl] at this
          cases cs with
          | nil => exact absurd rfl hne
          | cons a l => simp at this
        | cons a l => rfl
      set high := ((pyEnum 0 s).filter
        (fun ic => 90 ≤ ic.2.confidence)).map Prod.fst with hhighdef
      have hhigh : high = [] := by
        rw [hhighdef, List.map_eq_nil_iff, List.filter_eq_nil_iff]
        intro p hp
        have hmem := mem_pyEnum_snd _ _ p hp
        rw [hs, mem_pySort] at hmem
        have := hlow p.2 hmem
        simp only [decide_eq_true_eq]
        omega
      rw [hempty, hhigh]
      rfl
    · intro hex
      simp only [sortAndRecommend]
      set s := pySort (fun a b : CandI =>
        decide (b.confidence ≤ a.confidence)) cs with hs
      have hpw : s.Pairwise
          (fun a b => decide (b.confidence ≤ a.confidence) = true) := by
        rw [hs]
        exact pairwise_pySort _ confLe_trans confLe_total cs
      obtain ⟨c0, hc0, hc090⟩ := hex
      have hc0s : c0 ∈ s := by
        rw [hs, mem_pySort]
        exact hc0
      have hexs : ∃ c ∈ s, 90 ≤ c.confidence := ⟨c0, hc0s, hc090⟩
      have hempty : s.isEmpty = false := by
        cases hsl : s with
        | nil => rw [hsl] at hc0s; simp at hc0s
        | cons a l => rfl
      set high := ((pyEnum 0 s).filter
        (fun ic => 90 ≤ ic.2.confidence)).map Prod.fst with hhighdef
      set pref := high.filter (fun i =>
        match s.get? i with
        | some c => isPreferredType c
        | none => false) with hprefdef
      have hhighhead : high.head? =
          firstIdxWhere (fun c => decide (90 ≤ c.confidence)) s :=
        high_as_firstIdx s
      have hhigh0 :
          firstIdxWhere (fun c => decide (90 ≤ c.confidence)) s = some 0 :=
        firstIdxWhere_high_zero s hpw hexs
      have hhighne : high.isEmpty = false := by
        cases hl : high with
        | nil =>
          rw [hl] at hhighhead
          rw [hhigh0] at hhighhead
          simp at hhighhead
        | cons a l => rfl
      have hprefhead : pref.head? =
          firstIdxWhere
            (fun c => decide (90 ≤ c.confidence) && isPreferredType c) s :=
        preferred_as_firstIdx s
      rw [hempty, hhighne]
      simp only [Bool.false_eq_true, if_false, Bool.not_false, if_true]
      cases hpf : firstIdxWhere
          (fun c => decide (90 ≤ c.confidence) && isPreferredType c) s with
      | some j =>
        have hplist : pref.head? = some j := by rw [hprefhead, hpf]
        have hpe : pref.isEmpty = false := by
          cases hl : pref with
          | nil => rw [hl] at hplist; simp at hplist
          | cons a l => rfl
        rw [hpe]
        simp only [Bool.not_false, if_true]
        rw [hplist]
        rfl
      | none =>
        have hplist : pref.head? = none := by rw [hprefhead, hpf]
        have hpe : pref.isEmpty = true := by
          cases hl : pref with
          | nil => rfl
          | cons a l => rw [hl] at hplist; simp at hplist
        rw [hpe]
        simp only [Bool.not_true, Bool.false_eq_true, if_false]
        rw [hhighhead, hhigh0]
        rfl
  · intro scorer st name
    constructor
    · have h := hsorted (buildCandidates scorer st name)
      simp only [get_matching_candidates]
      rw [List.map_map]
      exact List.Pairwise.map _ (fun a b hab => hab)
        (h.imp (fun {a b} hab => hab))
    · rfl

/-- C6 counterexample: on a concrete database the generator recommends
index 1 (structured match, confidence 95) although index 0 (fuzzy,
confidence 97) is the strictly highest-confidence candidate among those
with confidence at least 90 — the type preference overrides confidence,
not only at equal confidence as the claim states. -/
theorem C6_recommendation_counterexample :
    (get_matching_candidates candScorer candState
        "PASS FC 2013B White").recommended_match = some 1 ∧
    ((get_matching_candidates candScorer candState
        "PASS FC 2013B White").candidates.map (fun c => c.confidence)) =
      [97, 95] ∧
    ((get_matching_candidates candScorer candState
        "PASS FC 2013B White").candidates.map (fun c => c.match_type)) =
      ["fuzzy", "birth_year_club"] := by
  decide

/-- C6 witness: on the counterexample database the amended
recommendation rule evaluates as stated. -/
theorem C6_recommendation_amended_witness :
    (sortAndRecommend (buildCandidates candScorer candState
        "PASS FC 2013B White")).2 =
      some ((firstIdxWhere
        (fun c => decide (90 ≤ c.confidence) && isPreferredType c)
        (sortAndRecommend (buildCandidates candScorer candState
          "PASS FC 2013B White")).1).getD 0) := by
  refine (C6_recommendation_amended.1 _).2.2.2 ?_
  decide

/-! ### C8: normalizer refinement lemmas -/

theorem splitAux_good : ∀ (l acc : List Char),
    (∀ c ∈ acc, wsChar c = false) → GoodWords (splitAux acc l) := by
  intro l
  induction l with
  | nil =>
    intro acc hacc
    simp only [splitAux]
    split
    · intro w hw; simp at hw
    · rename_i hne
      intro w hw
      simp only [List.mem_singleton] at hw
      subst hw
      refine ⟨?_, ?_⟩
      · simp only [ne_eq, List.reverse_eq_nil_iff]
        simpa [List.isEmpty_iff] using hne
      · intro c hc
        rw [List.mem_reverse] at hc
        exact hacc c hc
  | cons x xs ih =>
    intro acc hacc
    simp only [splitAux]
    cases hx : wsChar x with
    | true =>
      simp only [if_true]
      split
      · exact ih [] (by simp)
      · rename_i hne
        intro w hw
        rw [List.mem_cons] at hw
        cases hw with
        | inl h =>
          subst h
          refine ⟨?_, ?_⟩
          · simp only [ne_eq, List.reverse_eq_nil_iff]
            simpa [List.isEmpty_iff] using hne
          · intro c hc
            rw [List.mem_reverse] at hc
            exact hacc c hc
        | inr h => exact ih [] (by simp) w h
    | false =>
      simp only [Bool.false_eq_true, if_false]
      refine ih (x :: acc) ?_
      intro c hc
      rw [List.mem_cons] at hc
      cases hc with
      | inl h => subst h; exact hx
      | inr h => exact hacc c h

theorem pySplit_good (l : List Char) : GoodWords (pySplit l) :=
  splitAux_good l [] (by simp)

theorem wsChar_pyLower (c : Char) : wsChar (pyLower c) = wsChar c := by
  unfold pyLower
  by_cases h1 : (c == 'A') = true
  · rw [if_pos h1, show c = 'A' from by simpa using h1]
    decide
  rw [if_neg h1]
  by_cases h2 : (c == 'B') = true
  · rw [if_pos h2, show c = 'B' from by simpa using h2]
    decide
  rw [if_neg h2]
  by_cases h3 : (c == 'C') = true
  · rw [if_pos h3, show c = 'C' from by simpa using h3]
    decide
  rw [if_neg h3]
  by_cases h4 : (c == 'D') = true
  · rw [if_pos h4, show c = 'D' from by simpa using h4]
    decide
  rw [if_neg h4]
  by_cases h5 : (c == 'E') = true
  · rw [if_pos h5, show c = 'E' from by simpa using h5]
    decide
  rw [if_neg h5]
  by_cases h6 : (c == 'F') = true
  · rw [if_pos h6, show c = 'F' from by simpa using h6]
    decide
  rw [if_neg h6]
  by_cases h7 : (c == 'G') = true
  · rw [if_pos h7, show c = 'G' from by simpa using h7]
    decide
  rw [if_neg h7]
  by_cases h8 : (c == 'H') = true
  · rw [if_pos h8, show c = 'H' from by simpa using h8]
    decide
  rw [if_neg h8]
  by_cases h9 : (c == 'I') = true
  · rw [if_pos h9, show c = 'I' from by simpa using h9]
    decide
  rw [if_neg h9]
  by_cases h10 : (c == 'J') = true
  · rw [if_pos h10, show c = 'J' from by simpa using h10]
    decide
  rw [if_neg h10]
  by_cases h11 : (c == 'K') = true
  · rw [if_pos h11, show c = 'K' from by simpa using h11]
    decide
  rw [if_neg h11]
  by_cases h12 : (c == 'L') = true
  · rw [if_pos h12, show c = 'L' from by simpa using h12]
    decide
  rw [if_neg h12]
  by_cases h13 : (c == 'M') = true
  · rw [if_pos h13, show c = 'M' from by simpa using h13]
    decide
  rw [if_neg h13]
  by_cases h14 : (c == 'N') = true
  · rw [if_pos h14, show c = 'N' from by simpa using h14]
    decide
  rw [if_neg h14]
  by_cases h15 : (c == 'O') = true
  · rw [if_pos h15, show c = 'O' from by simpa using h15]
    decide
  rw [if_neg h15]
  by_cases h16 : (c == 'P') = true
  · rw [if_pos h16, show c = 'P' from by simpa using h16]
    decide
  rw [if_neg h16]
  by_cases h17 : (c == 'Q') = true
  · rw [if_pos h17, show c = 'Q' from by simpa using h17]
    decide
  rw [if_neg h17]
  by_cases h18 : (c == 'R') = true
  · rw [if_pos h18, show c = 'R' from by simpa using h18]
    decide
  rw [if_neg h18]
  by_cases h19 : (c == 'S') = true
  · rw [if_pos h19, show c = 'S' from by simpa using h19]
    decide
  rw [if_neg h19]
  by_cases h20 : (c == 'T') = true
  · rw [if_pos h20, show c = 'T' from by simpa using h20]
    decide
  rw [if_neg h20]
  by_cases h21 : (c == 'U') = true
  · rw [if_pos h21, show c = 'U' from by simpa using h21]
    decide
  rw [if_neg h21]
  by_cases h22 : (c == 'V') = true
  · rw [if_pos h22, show c = 'V' from by simpa using h22]
    decide
  rw [if_neg h22]
  by_cases h23 : (c == 'W') = true
  · rw [if_pos h23, show c = 'W' from by simpa using h23]
    decide
  rw [if_neg h23]
  by_cases h24 : (c == 'X') = true
  · rw [if_pos h24, show c = 'X' from by simpa using h24]
    decide
  rw [if_neg h24]
  by_cases h25 : (c == 'Y') = true
  · rw [if_pos h25, show c = 'Y' from by simpa using h25]
    decide
  rw [if_neg h25]
  by_cases h26 : (c == 'Z') = true
  · rw [if_pos h26, show c = 'Z' from by simpa using h26]
    decide
  rw [if_neg h26]

theorem goodWords_map_pyLower (ws : List (List Char)) (h : GoodWords ws) :
    GoodWords (ws.map (List.map pyLower)) := by
  intro w hw
  rw [List.mem_map] at hw
  obtain ⟨w0, hw0, rfl⟩ := hw
  obtain ⟨hne, hchars⟩ := h w0 hw0
  refine ⟨by simpa using hne, ?_⟩
  intro c hc
  rw [List.mem_map] at hc
  obtain ⟨c0, hc0, rfl⟩ := hc
  rw [wsChar_pyLower]
  exact hchars c0 hc0

theorem map_pyLower_joinWords : ∀ ws : List (List Char),
    (joinWords ws).map pyLower = joinWords (ws.map (List.map pyLower)) := by
  intro ws
  induction ws with
  | nil => rfl
  | cons w ws ih =>
    cases ws with
    | nil => rfl
    | cons w2 ws2 =>
      show (w ++ ' ' :: joinWords (w2 :: ws2)).map pyLower = _
      rw [List.map_append, List.map_cons, ih]
      rfl

theorem join_concat : ∀ (ws : List (List Char)) (w : List Char), ws ≠ [] →
    joinWords (ws ++ [w]) = joinWords ws ++ ' ' :: w := by
  intro ws
  induction ws with
  | nil => intro w h; exact absurd rfl h
  | cons w0 ws0 ih =>
    intro w _
    cases ws0 with
    | nil => rfl
    | cons w1 ws1 =>
      show joinWords (w0 :: ((w1 :: ws1) ++ [w])) = _
      have h1 : joinWords (w0 :: ((w1 :: ws1) ++ [w])) =
          w0 ++ ' ' :: joinWords ((w1 :: ws1) ++ [w]) := rfl
      rw [h1, ih w (by simp)]
      show _ = (w0 ++ ' ' :: joinWords (w1 :: ws1)) ++ ' ' :: w
      simp

theorem goodWord_reverse_cons (w : List Char) (h : GoodWord w) :
    ∃ c t, w.reverse = c :: t ∧ wsChar c = false := by
  obtain ⟨hne, hchars⟩ := h
  cases hw : w.reverse with
  | nil =>
    rw [List.reverse_eq_nil_iff] at hw
    exact absurd hw hne
  | cons c t =>
    refine ⟨c, t, rfl, ?_⟩
    have : c ∈ w.reverse := by rw [hw]; simp
    rw [List.mem_reverse] at this
    exact hchars c this

theorem join_reverse_head : ∀ ws : List (List Char), GoodWords ws →
    ws ≠ [] → ∃ c t, (joinWords ws).reverse = c :: t ∧ wsChar c = false := by
  intro ws hgw hne
  rcases List.eq_nil_or_concat ws with h | ⟨L, w, h⟩
  · exact absurd h hne
  · rw [List.concat_eq_append] at h
    subst h
    have hw : GoodWord w := hgw w (by simp)
    obtain ⟨c, t, hrev, hc⟩ := goodWord_reverse_cons w hw
    cases hL : L with
    | nil =>
      refine ⟨c, t, ?_, hc⟩
      subst hL
      simpa [joinWords] using hrev
    | cons a l =>
      refine ⟨c, t ++ ' ' :: (joinWords L).reverse, ?_, hc⟩
      rw [← hL, join_concat L w (by rw [hL]; simp)]
      rw [List.reverse_append, List.reverse_cons, hrev]
      simp

theorem dropTrailing_join (ws : List (List Char)) (hgw : GoodWords ws) :
    dropTrailingWsChars (joinWords ws) = joinWords ws := by
  cases hws : ws with
  | nil => rfl
  | cons a l =>
    obtain ⟨c, t, hrev, hc⟩ := join_reverse_head ws hgw (by rw [hws]; simp)
    rw [← hws]
    unfold dropTrailingWsChars
    rw [hrev, List.dropWhile_cons, hc]
    simp only [Bool.false_eq_true, if_false]
    rw [← hrev, List.reverse_reverse]

theorem join_head_nonws : ∀ ws : List (List Char), GoodWords ws →
    ws ≠ [] → ∃ c t, joinWords ws = c :: t ∧ wsChar c = false := by
  intro ws hgw hne
  cases ws with
  | nil => exact absurd rfl hne
  | cons w ws' =>
    have hw : GoodWord w := hgw w (by simp)
    obtain ⟨hwne, hchars⟩ := hw
    cases hwc : w with
    | nil => exact absurd hwc hwne
    | cons c w' =>
      have hc : wsChar c = false := hchars c (by rw [hwc]; simp)
      cases ws' with
      | nil => exact ⟨c, w', rfl, hc⟩
      | cons w2 ws2 =>
        exact ⟨c, w' ++ ' ' :: joinWords (w2 :: ws2), rfl, hc⟩

theorem pyStrip_join (ws : List (List Char)) (hgw : GoodWords ws) :
    pyStrip (joinWords ws) = joinWords ws := by
  cases hws : ws with
  | nil => rfl
  | cons a l =>
    rw [← hws]
    obtain ⟨c, t, hhead, hc⟩ := join_head_nonws ws hgw (by rw [hws]; simp)
    unfold pyStrip pyLStrip
    rw [hhead, List.dropWhile_cons, hc]
    simp only [Bool.false_eq_true, if_false]
    rw [← hhead]
    exact dropTrailing_join ws hgw

theorem isSuffixL_append_self (tok a : List Char) :
    isSuffixL tok (a ++ tok) = true := by
  unfold isSuffixL
  rw [List.isPrefixOf_iff_prefix, List.reverse_append]
  exact List.prefix_append _ _

theorem take_reverse_drop (l : List Char) (n : Nat) (h : n ≤ l.length) :
    (l.take (l.length - n)).reverse = l.reverse.drop n := by
  rw [List.reverse_take]
  congr 1
  omega

theorem subTok_no_strip (tok w : List Char) (hw : GoodWord w) :
    subTrailingToken tok w = w := by
  simp only [subTrailingToken]
  rw [show dropTrailingWsChars w = w from by
    simpa [joinWords] using
      dropTrailing_join [w] (by intro u hu; simp at hu; subst hu; exact hw)]
  split
  · cases hp : (w.take (w.length - tok.length)).reverse with
    | nil => rfl
    | cons c t =>
      have hc : wsChar c = false := by
        have hcmem : c ∈ w := by
          have h1 : c ∈ (w.take (w.length - tok.length)).reverse := by
            rw [hp]; simp
          rw [List.mem_reverse] at h1
          exact List.take_subset _ _ h1
        exact hw.2 c hcmem
      simp [hc]
  · rfl

theorem subTrailingToken_joinWords (tok : List Char) (ws : List (List Char))
    (htokne : tok ≠ []) (htokws : ∀ c ∈ tok, wsChar c = false)
    (hgw : GoodWords ws) :
    subTrailingToken tok (joinWords ws) =
      joinWords (stripTrailingWord tok ws) := by
  rcases List.eq_nil_or_concat ws with hnil | ⟨L, w, hcat⟩
  · subst hnil
    have hsfx : isSuffixL tok (joinWords []) = false := by
      unfold isSuffixL
      cases htok : tok.reverse with
      | nil => rw [List.reverse_eq_nil_iff] at htok; exact absurd htok htokne
      | cons c t => rfl
    simp only [subTrailingToken, stripTrailingWord]
    rw [show dropTrailingWsChars (joinWords []) = joinWords [] from rfl, hsfx]
    simp
  · rw [List.concat_eq_append] at hcat
    subst hcat
    have hw : GoodWord w := hgw w (by simp)
    by_cases hLnil : L = []
    · subst hLnil
      simp only [List.nil_append]
      have hstrip : stripTrailingWord tok [w] = [w] := by
        unfold stripTrailingWord
        rw [if_neg]
        intro hcontra
        simp at hcontra
      rw [hstrip]
      exact subTok_no_strip tok (joinWords [w])
        (by simpa [joinWords] using hw)
    · have hgwL : GoodWords L := fun u hu => hgw u (by simp [hu])
      have hjoin : joinWords (L ++ [w]) = joinWords L ++ ' ' :: w :=
        join_concat L w hLnil
      have hdt : dropTrailingWsChars (joinWords (L ++ [w])) =
          joinWords (L ++ [w]) := dropTrailing_join _ hgw
      have hLrev : ∃ c t, (joinWords L).reverse = c :: t ∧ wsChar c = false :=
        join_reverse_head L hgwL hLnil
      have hRrev : (joinWords (L ++ [w])).reverse =
          w.reverse ++ ' ' :: (joinWords L).reverse := by
        rw [hjoin, List.reverse_append, List.reverse_cons]
        simp
      have hlen : (joinWords (L ++ [w])).length =
          (joinWords L).length + 1 + w.length := by
        rw [hjoin]
        simp
        try omega
      by_cases hwt : w = tok
      · subst hwt
        have hcond : 2 ≤ (L ++ [w]).length ∧
            (L ++ [w]).getLast? = some w := by
          constructor
          · cases L with
            | nil => exact absurd rfl hLnil
            | cons a l =>
              simp
              try omega
          · exact List.getLast?_concat L
        have hstrip : stripTrailingWord w (L ++ [w]) = L := by
          unfold stripTrailingWord
          rw [if_pos hcond, List.dropLast_concat]
        rw [hstrip]
        simp only [subTrailingToken]
        rw [hdt]
        have hsuf : isSuffixL w (joinWords (L ++ [w])) = true := by
          rw [hjoin, show joinWords L ++ ' ' :: w =
            (joinWords L ++ [' ']) ++ w from by simp]
          exact isSuffixL_append_self _ _
        rw [hsuf]
        simp only [if_true]
        have hwle : w.length ≤ (joinWords (L ++ [w])).length := by omega
        have hprev : ((joinWords (L ++ [w])).take
            ((joinWords (L ++ [w])).length - w.length)).reverse =
            ' ' :: (joinWords L).reverse := by
          rw [take_reverse_drop _ _ hwle, hRrev]
          rw [show w.length = w.reverse.length from by simp]
          rw [List.drop_left]
        rw [hprev]
        simp only [show wsChar ' ' = true from rfl, if_true]
        obtain ⟨c, t, hLr, hLc⟩ := hLrev
        unfold dropTrailingWsChars
        rw [show ((joinWords (L ++ [w])).take
            ((joinWords (L ++ [w])).length - w.length)).reverse =
            ' ' :: (joinWords L).reverse from hprev]
        rw [List.dropWhile_cons]
        simp only [show wsChar ' ' = true from rfl, if_true]
        rw [hLr, List.dropWhile_cons, hLc]
        simp only [Bool.false_eq_true, if_false]
        rw [← hLr, List.reverse_reverse]
      · have hstrip : stripTrailingWord tok (L ++ [w]) = L ++ [w] := by
          unfold stripTrailingWord
          rw [if_neg]
          intro hcontra
          rw [List.getLast?_concat] at hcontra
          exact hwt (Option.some_inj.mp hcontra.2)
        rw [hstrip]
        simp only [subTrailingToken]
        rw [hdt]
        cases hsuf : isSuffixL tok (joinWords (L ++ [w])) with
        | false => simp
        | true =>
          simp only [if_true]
          have hpre : tok.reverse <+: (joinWords (L ++ [w])).reverse := by
            rw [← List.isPrefixOf_iff_prefix]
            exact hsuf
          rcases Nat.lt_trichotomy tok.length w.length with h1 | h2 | h3
          · have htokle : tok.length ≤ (joinWords (L ++ [w])).length := by
              omega
            have hprev : ((joinWords (L ++ [w])).take
                ((joinWords (L ++ [w])).length - tok.length)).reverse =
                w.reverse.drop tok.length ++ ' ' :: (joinWords L).reverse := by
              rw [take_reverse_drop _ _ htokle, hRrev]
              rw [List.drop_append_of_le_length (by simp; omega)]
            cases hd : w.reverse.drop tok.length with
            | nil =>
              have := congrArg List.length hd
              simp at this
              omega
            | cons c t' =>
              rw [hd] at hprev
              rw [hprev]
              have hc : wsChar c = false := by
                have hcmem : c ∈ w := by
                  have h1 : c ∈ w.reverse.drop tok.length := by rw [hd]; simp
                  have h2 := List.drop_subset _ _ h1
                  rw [List.mem_reverse] at h2
                  exact h2
                exact hw.2 c hcmem
              simp [hc]
          · have : tok.reverse = w.reverse := by
              have h4 := List.prefix_iff_eq_take.mp hpre
              rw [hRrev] at h4
              rw [h4, show tok.reverse.length = w.reverse.length from by
                simp; omega]
              exact List.take_left' rfl
            have : tok = w := by
              have h5 := congrArg List.reverse this
              simpa using h5
            exact absurd this.symm hwt
          · exfalso
            have h4 := List.prefix_iff_eq_take.mp hpre
            rw [hRrev] at h4
            rw [List.take_append_eq_append_take] at h4
            obtain ⟨m, hm⟩ : ∃ m, tok.reverse.length - w.reverse.length
                = m + 1 := by
              refine ⟨tok.length - w.length - 1, ?_⟩
              rw [List.length_reverse, List.length_reverse]
              omega
            rw [hm] at h4
            simp only [List.take_succ_cons] at h4
            have hmem : ' ' ∈ tok.reverse := by
              rw [h4]
              simp
            rw [List.mem_reverse] at hmem
            have := htokws ' ' hmem
            exact absurd this (by decide)

theorem goodWords_stripTrailingWord (tok : List Char)
    (ws : List (List Char)) (h : GoodWords ws) :
    GoodWords (stripTrailingWord tok ws) := by
  unfold stripTrailingWord
  split
  · intro w hw
    exact h w ((List.dropLast_sublist ws).subset hw)
  · exact h

/-- C8: the character-level normalizer equals the word-level spec
pipeline — split on whitespace runs (which collapses and trims),
lowercase, drop a trailing standalone fc word, then a trailing
standalone sc word, and rejoin with single spaces; in particular Rapids
FC and Rapids normalize to the same string. -/
theorem C8_normalize_name_spec :
    (∀ s : String, normalize_name s = normalize_spec s) ∧
    normalize_name "Rapids FC" = normalize_name "Rapids" ∧
    normalize_name "Rapids FC" = "rapids" := by
  refine ⟨?_, by decide, by decide⟩
  intro s
  simp only [normalize_name, normalize_spec, collapseWs]
  have hW : GoodWords (pySplit s.data) := pySplit_good _
  have hW1 : GoodWords ((pySplit s.data).map (List.map pyLower)) :=
    goodWords_map_pyLower _ hW
  have hW2 : GoodWords (stripTrailingWord ['f', 'c']
      ((pySplit s.data).map (List.map pyLower))) :=
    goodWords_stripTrailingWord _ _ hW1
  have hW3 : GoodWords (stripTrailingWord ['s', 'c']
      (stripTrailingWord ['f', 'c']
        ((pySplit s.data).map (List.map pyLower)))) :=
    goodWords_stripTrailingWord _ _ hW2
  rw [map_pyLower_joinWords]
  rw [subTrailingToken_joinWords ['f', 'c'] _ (by simp) (by decide) hW1]
  rw [subTrailingToken_joinWords ['s', 'c'] _ (by simp) (by decide) hW2]
  rw [pyStrip_join _ hW3]

/-- C1 witness: a concrete resolve-resolve and save-save run on an empty
database. -/
theorem C1_resolve_and_upsert_idempotent_witness :
    get_or_create_team scorer84 "NUSC 2013B Green"
        (get_or_create_team scorer84 "NUSC 2013B Green" ⟨[], [], []⟩).2.2 =
      ((get_or_create_team scorer84 "NUSC 2013B Green" ⟨[], [], []⟩).1, false,
       (get_or_create_team scorer84 "NUSC 2013B Green" ⟨[], [], []⟩).2.2) ∧
    1 ≤ countTS
        (get_or_create_team scorer84 "NUSC 2013B Green" ⟨[], [], []⟩).1.id 3
        (save_standings_team scorer84 3
          ⟨"NUSC 2013B Green", 1, 2, 3, 0, 4, 5, 6, -1⟩ ⟨[], [], []⟩) := by
  have h := C1_resolve_and_upsert_idempotent scorer84 "NUSC 2013B Green"
    ⟨[], [], []⟩ (by simp)
  refine ⟨h.1, ?_⟩
  exact (h.2 3 ⟨"NUSC 2013B Green", 1, 2, 3, 0, 4, 5, 6, -1⟩
    ⟨"NUSC 2013B Green", 1, 2, 3, 0, 4, 5, 6, -1⟩ rfl rfl).2.1

end GVSA
